import Mathlib

set_option maxRecDepth 200000

/-!
Verification development for the task persistence-synchronization service of
the spiff-arena backend (file
spiffworkflow-backend/src/spiffworkflow_backend/services/task_service.py).

The Python service is shallowly embedded: JSON payloads are an inductive
type, database tables and engine structures are explicit finite maps, the
per-pass in-memory buffers are association lists with replace-or-append
insertion (matching Python dict semantics), and each method of TaskService
becomes a pure function threading an explicit pass state.  Fallible steps
(attribute errors, missing rows, KeyError) return an Except value.
-/

namespace SpiffArena

/-! ## Association lists with Python dict semantics -/

/-- Lookup of the first binding of a key in an association list, mirroring a
Python dict read (dicts hold at most one binding per key). -/
def alistGet {κ α : Type} [DecidableEq κ] (k : κ) : List (κ × α) → Option α
  | [] => none
  | p :: t => if p.1 = k then some p.2 else alistGet k t

/-- Python dict assignment: replace the binding in place when the key exists,
append it otherwise (insertion order is preserved). -/
def alistInsert {κ α : Type} [DecidableEq κ] (k : κ) (v : α) : List (κ × α) → List (κ × α)
  | [] => [(k, v)]
  | p :: t => if p.1 = k then (k, v) :: t else p :: alistInsert k v t

/-! ## JSON values

Payloads handed to the service are the JSON-serializable dictionaries the
engine serializer produces.  Objects are modelled as ordered key-value lists
(Python dicts preserve insertion order). -/

inductive JVal : Type where
  | null : JVal
  | jbool (b : Bool) : JVal
  | jnum (n : Int) : JVal
  | jstr (s : String) : JVal
  | jarr (xs : List JVal) : JVal
  | jobj (kvs : List (String × JVal)) : JVal

/-! ## Canonical serialization (json.dumps with sort_keys=True)

json.dumps(obj, sort_keys=True) with default options serializes with
separators ", " and ": ", ensure_ascii escaping, and the keys of every
object emitted in sorted (code point) order.  We model this as a recursive
key-sorting pass (canon) followed by an order-preserving serializer. -/

/-- Insert one entry into a key-sorted entry list (insertion sort step,
stable, ordered by the String order, which compares code points the way
Python compares str). -/
def insertEntry (p : String × JVal) : List (String × JVal) → List (String × JVal)
  | [] => [p]
  | q :: t => if p.1 ≤ q.1 then p :: q :: t else q :: insertEntry p t

/-- Sort an object entry list by key (Python sorted(items)). -/
def sortEntries : List (String × JVal) → List (String × JVal)
  | [] => []
  | p :: t => insertEntry p (sortEntries t)

mutual
/-- Recursively sort the keys of every object in a JSON value; this is the
key-ordering normalization json.dumps(-, sort_keys=True) applies while
serializing. -/
def canon : JVal → JVal
  | .null => .null
  | .jbool b => .jbool b
  | .jnum n => .jnum n
  | .jstr s => .jstr s
  | .jarr xs => .jarr (canonList xs)
  | .jobj kvs => .jobj (sortEntries (canonEntries kvs))

/-- canon mapped over an array. -/
def canonList : List JVal → List JVal
  | [] => []
  | x :: t => canon x :: canonList t

/-- canon mapped over the values of an object entry list. -/
def canonEntries : List (String × JVal) → List (String × JVal)
  | [] => []
  | p :: t => (p.1, canon p.2) :: canonEntries t
end

/-- Lowercase hexadecimal digit. -/
def hexDigit (n : Nat) : Char :=
  if n < 10 then Char.ofNat (48 + n) else Char.ofNat (87 + n)

/-- Four-digit lowercase hexadecimal rendering, for \u escapes. -/
def hex4 (n : Nat) : String :=
  String.mk [hexDigit ((n >>> 12) % 16), hexDigit ((n >>> 8) % 16),
             hexDigit ((n >>> 4) % 16), hexDigit (n % 16)]

/-- Escape of a single character as the CPython json encoder does with
ensure_ascii=True: the two-character escapes for quote, backslash and the
common control characters, \uXXXX for other control or non-ASCII characters,
and surrogate pairs above the basic multilingual plane. -/
def escapeChar (c : Char) : String :=
  if c = Char.ofNat 34 then String.mk [Char.ofNat 92, Char.ofNat 34]
  else if c = Char.ofNat 92 then String.mk [Char.ofNat 92, Char.ofNat 92]
  else if c = Char.ofNat 10 then "\\n"
  else if c = Char.ofNat 9 then "\\t"
  else if c = Char.ofNat 13 then "\\r"
  else if c = Char.ofNat 8 then "\\b"
  else if c = Char.ofNat 12 then "\\f"
  else if c.toNat < 32 then "\\u" ++ hex4 c.toNat
  else if c.toNat < 127 then String.mk [c]
  else if c.toNat < 65536 then "\\u" ++ hex4 c.toNat
  else
    let v := c.toNat - 65536
    "\\u" ++ hex4 (55296 + (v >>> 10)) ++ "\\u" ++ hex4 (56320 + (v % 1024))

/-- JSON string literal serialization. -/
def serializeString (s : String) : String :=
  "\"" ++ (s.data.map escapeChar).foldl (fun a b => a ++ b) "" ++ "\""

mutual
/-- Order-preserving JSON serialization with the json.dumps default
separators. -/
def serialize : JVal → String
  | .null => "null"
  | .jbool b => if b then "true" else "false"
  | .jnum n => toString n
  | .jstr s => serializeString s
  | .jarr xs => "[" ++ serializeList xs ++ "]"
  | .jobj kvs => "\x7b" ++ serializeEntries kvs ++ "\x7d"

/-- Comma-joined serialization of array elements. -/
def serializeList : List JVal → String
  | [] => ""
  | [x] => serialize x
  | x :: y :: t => serialize x ++ ", " ++ serializeList (y :: t)

/-- Comma-joined serialization of object entries. -/
def serializeEntries : List (String × JVal) → String
  | [] => ""
  | [p] => serializeString p.1 ++ ": " ++ serialize p.2
  | p :: q :: t => serializeString p.1 ++ ": " ++ serialize p.2 ++ ", " ++ serializeEntries (q :: t)
end

/-- json.dumps(v, sort_keys=True): serialize after sorting all object keys. -/
def dumps_sort_keys (v : JVal) : String := serialize (canon v)

/-! ## SHA-256

Faithful implementation of FIPS 180-4 SHA-256 over byte lists, used by the
service as hashlib.sha256(payload_json.encode("utf8")).hexdigest(). -/

namespace Sha256

/-- Two to the thirty-second power, the word modulus. -/
def MOD32 : Nat := 4294967296

/-- Right rotation of a 32-bit word. -/
def rotr (n x : Nat) : Nat := ((x >>> n) ||| (x <<< (32 - n))) % MOD32

/-- The Ch function of the compression loop (bitwise complement is taken
within 32 bits). -/
def chF (x y z : Nat) : Nat := (x &&& y) ^^^ ((x ^^^ 4294967295) &&& z)

/-- The Maj function of the compression loop. -/
def majF (x y z : Nat) : Nat := (x &&& y) ^^^ (x &&& z) ^^^ (y &&& z)

/-- Big sigma 0. -/
def bigSigma0 (x : Nat) : Nat := rotr 2 x ^^^ rotr 13 x ^^^ rotr 22 x

/-- Big sigma 1. -/
def bigSigma1 (x : Nat) : Nat := rotr 6 x ^^^ rotr 11 x ^^^ rotr 25 x

/-- Small sigma 0. -/
def smallSigma0 (x : Nat) : Nat := rotr 7 x ^^^ rotr 18 x ^^^ (x >>> 3)

/-- Small sigma 1. -/
def smallSigma1 (x : Nat) : Nat := rotr 17 x ^^^ rotr 19 x ^^^ (x >>> 10)

/-- The 64 round constants. -/
def K : List Nat :=
  [1116352408, 1899447441, 3049323471, 3921009573, 961987163, 1508970993,
   2453635748, 2870763221, 3624381080, 310598401, 607225278, 1426881987,
   1925078388, 2162078206, 2614888103, 3248222580, 3835390401, 4022224774,
   264347078, 604807628, 770255983, 1249150122, 1555081692, 1996064986,
   2554220882, 2821834349, 2952996808, 3210313671, 3336571891, 3584528711,
   113926993, 338241895, 666307205, 773529912, 1294757372, 1396182291,
   1695183700, 1986661051, 2177026350, 2456956037, 2730485921, 2820302411,
   3259730800, 3345764771, 3516065817, 3600352804, 4094571909, 275423344,
   430227734, 506948616, 659060556, 883997877, 958139571, 1322822218,
   1537002063, 1747873779, 1955562222, 2024104815, 2227730452, 2361852424,
   2428436474, 2756734187, 3204031479, 3329325298]

/-- Working state of the compression function. -/
structure Hash8 where
  a : Nat
  b : Nat
  c : Nat
  d : Nat
  e : Nat
  f : Nat
  g : Nat
  h : Nat

/-- The initial hash value. -/
def H0 : Hash8 :=
  ⟨1779033703, 3144134277, 1013904242, 2773480762, 1359893119, 2600822924, 528734635, 1541459225⟩

/-- Extend the sixteen block words by n further schedule words. -/
def scheduleGo : Nat → List Nat → List Nat
  | 0, w => w
  | n + 1, w =>
    let len := w.length
    let t := (smallSigma1 (w.getD (len - 2) 0) + w.getD (len - 7) 0
              + smallSigma0 (w.getD (len - 15) 0) + w.getD (len - 16) 0) % MOD32
    scheduleGo n (w ++ [t])

/-- One round of the compression function, consuming a constant-word pair. -/
def round (st : Hash8) (p : Nat × Nat) : Hash8 :=
  let t1 := (st.h + bigSigma1 st.e + chF st.e st.f st.g + p.1 + p.2) % MOD32
  let t2 := (bigSigma0 st.a + majF st.a st.b st.c) % MOD32
  ⟨(t1 + t2) % MOD32, st.a, st.b, st.c, (st.d + t1) % MOD32, st.e, st.f, st.g⟩

/-- Process one 64-byte block given as sixteen 32-bit words. -/
def processBlock (H : Hash8) (block : List Nat) : Hash8 :=
  let w := scheduleGo 48 block
  let st := (K.zip w).foldl round H
  ⟨(H.a + st.a) % MOD32, (H.b + st.b) % MOD32, (H.c + st.c) % MOD32, (H.d + st.d) % MOD32,
   (H.e + st.e) % MOD32, (H.f + st.f) % MOD32, (H.g + st.g) % MOD32, (H.h + st.h) % MOD32⟩

/-- Big-endian 32-bit words from a byte list (the input length is a multiple
of four for padded messages). -/
def toWords : Nat → List Nat → List Nat
  | 0, _ => []
  | _ + 1, b0 :: b1 :: b2 :: b3 :: rest =>
    (((b0 * 256 + b1) * 256 + b2) * 256 + b3) :: toWords rest.length rest
  | _ + 1, _ => []

/-- Split a byte list into 64-byte chunks. -/
def chunks : Nat → List Nat → List (List Nat)
  | 0, _ => []
  | _, [] => []
  | n + 1, l => l.take 64 :: chunks n (l.drop 64)

/-- Eight-byte big-endian rendering of the bit length. -/
def be8 (n : Nat) : List Nat :=
  [(n >>> 56) % 256, (n >>> 48) % 256, (n >>> 40) % 256, (n >>> 32) % 256,
   (n >>> 24) % 256, (n >>> 16) % 256, (n >>> 8) % 256, n % 256]

/-- FIPS 180-4 padding: a one bit, zeros to 56 mod 64, then the bit length. -/
def pad (msg : List Nat) : List Nat :=
  let len := msg.length
  let zeros := (64 + 55 - (len % 64)) % 64
  msg ++ [128] ++ List.replicate zeros 0 ++ be8 (8 * len)

/-- The SHA-256 state after absorbing a whole byte message. -/
def digestState (msg : List Nat) : Hash8 :=
  let padded := pad msg
  ((chunks padded.length padded).map (fun b => toWords b.length b)).foldl processBlock H0

/-- Eight-digit lowercase hexadecimal rendering of one word. -/
def hex8 (n : Nat) : String := hex4 (n >>> 16) ++ hex4 (n % 65536)

/-- Lowercase hex digest of a byte message, as hashlib hexdigest returns. -/
def hexdigestBytes (msg : List Nat) : String :=
  let s := digestState msg
  hex8 s.a ++ hex8 s.b ++ hex8 s.c ++ hex8 s.d ++ hex8 s.e ++ hex8 s.f ++ hex8 s.g ++ hex8 s.h

end Sha256

/-- UTF-8 encoding of one code point. -/
def utf8Char (c : Char) : List Nat :=
  let n := c.toNat
  if n < 128 then [n]
  else if n < 2048 then [192 ||| (n >>> 6), 128 ||| (n &&& 63)]
  else if n < 65536 then [224 ||| (n >>> 12), 128 ||| ((n >>> 6) &&& 63), 128 ||| (n &&& 63)]
  else [240 ||| (n >>> 18), 128 ||| ((n >>> 12) &&& 63), 128 ||| ((n >>> 6) &&& 63), 128 ||| (n &&& 63)]

/-- UTF-8 bytes of a string (str.encode("utf8")). -/
def utf8 (s : String) : List Nat := (s.data.map utf8Char).foldl (fun a b => a ++ b) []

/-- sha256(s.encode("utf8")).hexdigest(). -/
def sha256_hexdigest (s : String) : String := Sha256.hexdigestBytes (utf8 s)

/-- The content hash the service computes for a payload: the sha256 hex
digest of the canonical JSON serialization with sorted keys. -/
def json_hash (v : JVal) : String := sha256_hexdigest (dumps_sort_keys v)

end SpiffArena

namespace SpiffArena

/-! ## Data model

Rows and engine objects used by TaskService.  Times are modelled as
rationals (only assignment and Python truthiness are ever applied to them).
-/

/-- The StartAndEndTimes TypedDict. -/
structure StartAndEndTimes where
  start_in_seconds : Option Rat
  end_in_seconds : Option Rat
deriving DecidableEq, Repr

/-- The JsonDataDict TypedDict: one content-addressed payload record. -/
structure JsonDataDict where
  hash : String
  data : JVal

/-- The dictionary the engine serializer produces for one task, minus the
"data" entry which the service pops off before storing.  Modelled from the
spec: the serializer emits state, parent id, task-spec name and children for
each task. -/
structure TaskProps where
  task_spec : String
  parent : Option String
  children : List String
  state : Nat
deriving DecidableEq, Repr

/-- A live engine task (SpiffTask interface): stable id, state bitmask,
parent and children references, owning workflow reference and data payload.
Modelled from the spec: the execution engine exposes exactly these
traversal primitives. -/
structure SpiffTaskNode where
  id : String
  state : Nat
  parent : Option String
  children : List String
  task_spec : String
  data : JVal
  wf : Nat

/-- The serializer dictionary for a whole workflow, after the service pops
tasks and data off; subprocesses, spec and subprocess_specs are dropped
before the snapshot is stored, so they are not modelled as fields. -/
structure WorkflowDict where
  tasks : List (String × TaskProps)
  data : JVal
  root : Option String
  last_task : Option String
  success : Bool

/-- A live engine workflow (BpmnWorkflow interface): identity token, outer
workflow reference, data payload, last task pointer, success flag, spec
name and its serializer dictionary.  Modelled from the spec: workflows are
compared by reference identity, so the identity token stands for the
object. -/
structure SpiffWorkflowInfo where
  outer : Nat
  data : JVal
  last_task : Option String
  success : Bool
  spec_name : String
  serialized : WorkflowDict

/-- The stored properties_json snapshot of a bpmn process row: the workflow
dictionary keys that remain after tasks, data, subprocesses, spec and
subprocess_specs are popped. -/
structure BpmnProps where
  root : Option String
  last_task : Option String
  success : Bool
deriving DecidableEq, Repr

/-- A BpmnProcessModel row.  Row ids are allocated eagerly from the pass
allocator when the source adds a new object to the session (the ORM assigns
ids at flush). -/
structure BpmnProcessModel where
  id : Nat
  guid : Option String := none
  direct_parent_process_id : Option Nat := none
  top_level_process_id : Option Nat := none
  json_data_hash : Option String := none
  properties_json : Option BpmnProps := none
  bpmn_process_definition_id : Option Nat := none
deriving DecidableEq, Repr

/-- A TaskModel row.  The two hash columns are nullable; extra_attrs holds
instance attributes created by setattr under a name that is not a modelled
column (plain Python object attribute assignment). -/
structure TaskModel where
  guid : String
  bpmn_process_id : Option Nat := none
  process_instance_id : Nat := 0
  task_definition_id : Nat := 0
  state : Option String := none
  properties_json : Option TaskProps := none
  json_data_hash : Option String := none
  python_env_data_hash : Option String := none
  start_in_seconds : Option Rat := none
  end_in_seconds : Option Rat := none
  extra_attrs : List (String × String) := []
deriving DecidableEq, Repr

/-- A ProcessInstanceEventModel row as built for a task lifecycle event.
Modelled from the spec: a LifecycleEvent holds task guid, event type and
timestamp; add_event_to_process_instance constructs it without touching the
database session when add_to_db_session is false. -/
structure EventModel where
  task_guid : String
  event_type : String
  timestamp : Rat
deriving DecidableEq, Repr

/-- The process instance row: id, bpmn process pointer column and the loaded
relationship object.  Assigning the relationship also records the id, as
the ORM does at flush time. -/
structure ProcessInstanceModel where
  id : Nat
  bpmn_process_id : Option Nat := none
  bpmn_process : Option BpmnProcessModel := none
deriving DecidableEq, Repr

/-- All external collaborators of one reconciliation pass: the engine task
tree and workflow graph, the serializer outputs, the script environment
payload, the wall clock and the database tables.  Database lookups are
first-match searches over the table lists. -/
structure Ctx where
  tasks : List (String × SpiffTaskNode)
  workflows : List (Nat × SpiffWorkflowInfo)
  top : Nat
  subprocesses : List (String × Nat)
  pythonEnv : JVal
  now : Rat
  dbTasks : List TaskModel
  dbProcesses : List BpmnProcessModel
  taskDefs : List ((String × String) × Nat)
  bpmnDefs : List (String × Nat)
  taskDefTypenames : List (Nat × String)

/-- The mutable state of one pass: the four identity-keyed buffers of
TaskService.__init__, the process instance, the objects added to the
session, and the modelled row id allocator. -/
structure PassState where
  bpmn_processes : List (String × BpmnProcessModel) := []
  task_models : List (String × TaskModel) := []
  json_data_dicts : List (String × JsonDataDict) := []
  process_instance_events : List (String × EventModel) := []
  process_instance : ProcessInstanceModel
  session_processes : List BpmnProcessModel := []
  next_id : Nat := 1000

/-- Failure of an embedded step: either the BpmnProcessNotFoundError the
service raises itself, or any other Python-level error (missing row where
an attribute is then accessed, KeyError on a state lookup, and so on). -/
inductive RunErr : Type where
  | bpmnProcessNotFound (msg : String) : RunErr
  | modelCrash : RunErr
deriving DecidableEq, Repr

/-- TaskModel.query.filter_by(guid=g).first(). -/
def dbTaskByGuid (ctx : Ctx) (g : String) : Option TaskModel :=
  ctx.dbTasks.find? (fun r => r.guid == g)

/-- BpmnProcessModel.query.filter_by(id=i).first(). -/
def dbProcessById (ctx : Ctx) (i : Nat) : Option BpmnProcessModel :=
  ctx.dbProcesses.find? (fun r => r.id == i)

/-- BpmnProcessModel.query.filter_by(guid=g).first(). -/
def dbProcessByGuid (ctx : Ctx) (g : String) : Option BpmnProcessModel :=
  ctx.dbProcesses.find? (fun r => r.guid == some g)

/-- BpmnProcessModel.query.filter_by(top_level_process_id=t, guid=g).first(). -/
def dbProcessByTopAndGuid (ctx : Ctx) (t : Nat) (g : Option String) : Option BpmnProcessModel :=
  ctx.dbProcesses.find? (fun r => r.top_level_process_id == some t && r.guid == g)

/-- Python float truthiness selection: a or b is b when a is None or zero. -/
def py_or_rat (a : Option Rat) (b : Rat) : Rat :=
  match a with
  | some x => if x = 0 then b else x
  | none => b

/-- Python string truthiness selection: a or b is b when a is None or empty. -/
def py_or_string (a : Option String) (b : String) : String :=
  match a with
  | some s => if s = "" then b else s
  | none => b

/-! ## Task states

Modelled from the spec: the engine task state bitmask with the speculative
(predicted) states MAYBE and LIKELY, and the TaskStateNames mapping from
numeric values to names. -/

/-- TaskStateNames: numeric task state to its name, as the engine exposes. -/
def TaskStateNames (n : Nat) : Option String :=
  if n = 1 then some "MAYBE"
  else if n = 2 then some "LIKELY"
  else if n = 4 then some "FUTURE"
  else if n = 8 then some "WAITING"
  else if n = 16 then some "READY"
  else if n = 32 then some "STARTED"
  else if n = 64 then some "COMPLETED"
  else if n = 128 then some "ERROR"
  else if n = 256 then some "CANCELLED"
  else none

/-- getattr(TaskState, name): the numeric value of a state name. -/
def TaskStateValue (s : String) : Option Nat :=
  if s = "MAYBE" then some 1
  else if s = "LIKELY" then some 2
  else if s = "FUTURE" then some 4
  else if s = "WAITING" then some 8
  else if s = "READY" then some 16
  else if s = "STARTED" then some 32
  else if s = "COMPLETED" then some 64
  else if s = "ERROR" then some 128
  else if s = "CANCELLED" then some 256
  else none

/-- TaskState.PREDICTED_MASK, the union of the speculative states MAYBE and
LIKELY. -/
def PREDICTED_MASK : Nat := 3

/-- spiff_task._has_state(mask): the state bitmask intersects the mask. -/
def has_state (st : SpiffTaskNode) (mask : Nat) : Bool :=
  decide (st.state &&& mask ≠ 0)

/-- serializer.task_to_dict(spiff_task), split as the properties dictionary
(after the service pops "data") and the data payload. -/
def task_to_dict (st : SpiffTaskNode) : TaskProps × JVal :=
  ({ task_spec := st.task_spec, parent := st.parent, children := st.children,
     state := st.state }, st.data)

end SpiffArena

namespace SpiffArena

namespace TaskService

/-- getattr over the modelled TaskModel columns used with dynamic names; a
name that is not one of the two hash columns reads a plain instance
attribute, which holds no string unless a previous setattr stored one. -/
def getColumn (tm : TaskModel) (c : String) : Option String :=
  if c = "json_data_hash" then tm.json_data_hash
  else if c = "python_env_data_hash" then tm.python_env_data_hash
  else alistGet c tm.extra_attrs

/-- setattr over the modelled TaskModel columns with dynamic names; unknown
names create a plain instance attribute. -/
def setColumn (tm : TaskModel) (c : String) (v : String) : TaskModel :=
  if c = "json_data_hash" then { tm with json_data_hash := some v }
  else if c = "python_env_data_hash" then { tm with python_env_data_hash := some v }
  else { tm with extra_attrs := alistInsert c v tm.extra_attrs }

/-- TaskService.update_task_data_on_task_model_and_return_dict_if_updated:
hash the payload; when the named column already holds that hash, return the
model unchanged and no record, otherwise store the hash under the name and
return the record for the pass buffer. -/
def update_task_data_on_task_model_and_return_dict_if_updated
    (task_model : TaskModel) (task_data_dict : JVal) (task_model_data_column : String) :
    TaskModel × Option JsonDataDict :=
  let task_data_json := dumps_sort_keys task_data_dict
  let task_data_hash := sha256_hexdigest task_data_json
  if getColumn task_model task_model_data_column = some task_data_hash then
    (task_model, none)
  else
    (setColumn task_model task_model_data_column task_data_hash,
     some { hash := task_data_hash, data := task_data_dict })

/-- TaskService.update_task_data_on_bpmn_process: the same hash-compare
update against the json_data_hash column of a process row. -/
def update_task_data_on_bpmn_process (bpmn_process : BpmnProcessModel)
    (bpmn_process_data_dict : JVal) : BpmnProcessModel × Option JsonDataDict :=
  let bpmn_process_data_json := dumps_sort_keys bpmn_process_data_dict
  let bpmn_process_data_hash := sha256_hexdigest bpmn_process_data_json
  if bpmn_process.json_data_hash = some bpmn_process_data_hash then
    (bpmn_process, none)
  else
    ({ bpmn_process with json_data_hash := some bpmn_process_data_hash },
     some { hash := bpmn_process_data_hash, data := bpmn_process_data_dict })

/-- TaskService.reset_task_model.  When no json hash is supplied the json
column is reset through the hash-compare update with the empty payload;
when no python env hash is supplied the source passes the column name
"python_env_data" (not a hash column) to the same update.  An unknown state
name (getattr on TaskState) or a missing snapshot is a crash. -/
def reset_task_model (task_model : TaskModel) (state : String)
    (json_data_hash : Option String) (python_env_data_hash : Option String) :
    Except RunErr TaskModel :=
  let tm1 := match json_data_hash with
    | none => (update_task_data_on_task_model_and_return_dict_if_updated
                 task_model (.jobj []) "json_data_hash").1
    | some h => { task_model with json_data_hash := some h }
  let tm2 := match python_env_data_hash with
    | none => (update_task_data_on_task_model_and_return_dict_if_updated
                 tm1 (.jobj []) "python_env_data").1
    | some h => { tm1 with python_env_data_hash := some h }
  let tm3 := { tm2 with
                 state := (some state)
                 start_in_seconds := (none : Option Rat)
                 end_in_seconds := (none : Option Rat) }
  match tm3.properties_json, TaskStateValue state with
  | some props, some n => .ok { tm3 with properties_json := some { props with state := n } }
  | _, _ => .error .modelCrash

/-- TaskService.remove_spiff_task_from_parent: when the parent task is
buffered and its snapshot lists the child, delete the first occurrence of
the child guid from the snapshot children list and store the parent back. -/
def remove_spiff_task_from_parent (spiff_task : SpiffTaskNode)
    (task_models : List (String × TaskModel)) : Except RunErr (List (String × TaskModel)) :=
  match spiff_task.parent with
  | none => .error .modelCrash
  | some spiff_task_parent_guid =>
    let spiff_task_guid := spiff_task.id
    match alistGet spiff_task_parent_guid task_models with
    | none => .ok task_models
    | some parent_task_model =>
      match parent_task_model.properties_json with
      | none => .error .modelCrash
      | some props =>
        if spiff_task_guid ∈ props.children then
          .ok (alistInsert spiff_task_parent_guid
                { parent_task_model with
                  properties_json := some { props with
                    children := props.children.erase spiff_task_guid } }
                task_models)
        else .ok task_models

/-- TaskService.update_task_model: write the serializer snapshot (forcing a
null parent for the Start task spec), mirror the numeric snapshot state into
the state name column via TaskStateNames, and run both hash-compare payload
updates, buffering any returned records under their hash. -/
def update_task_model (ctx : Ctx) (s : PassState) (task_model : TaskModel)
    (spiff_task : SpiffTaskNode) : Except RunErr (PassState × TaskModel) :=
  let pd := task_to_dict spiff_task
  let new_properties_json :=
    if pd.1.task_spec = "Start" then { pd.1 with parent := none } else pd.1
  let spiff_task_data := pd.2
  let python_env_data_dict := ctx.pythonEnv
  let tm1 := { task_model with properties_json := some new_properties_json }
  match TaskStateNames new_properties_json.state with
  | none => .error .modelCrash
  | some nm =>
    let tm2 := { tm1 with state := some nm }
    let r1 := update_task_data_on_task_model_and_return_dict_if_updated
                tm2 spiff_task_data "json_data_hash"
    let r2 := update_task_data_on_task_model_and_return_dict_if_updated
                r1.1 python_env_data_dict "python_env_data_hash"
    let s1 := match r1.2 with
      | some jd => { s with json_data_dicts := alistInsert jd.hash jd s.json_data_dicts }
      | none => s
    let s2 := match r2.2 with
      | some jd => { s1 with json_data_dicts := alistInsert jd.hash jd s1.json_data_dicts }
      | none => s1
    .ok (s2, r2.1)

/-- TaskService._create_task: a fresh TaskModel row carrying the identity
keys; the task definition id comes from the definitions mapping (KeyError
when absent). -/
def _create_task (ctx : Ctx) (bpmn_process : BpmnProcessModel)
    (process_instance : ProcessInstanceModel) (spiff_task : SpiffTaskNode) :
    Except RunErr TaskModel :=
  match alistGet spiff_task.wf ctx.workflows with
  | none => .error .modelCrash
  | some wfi =>
    match alistGet (wfi.spec_name, spiff_task.task_spec) ctx.taskDefs with
    | none => .error .modelCrash
    | some defId =>
      .ok { guid := spiff_task.id, bpmn_process_id := some bpmn_process.id,
            process_instance_id := process_instance.id, task_definition_id := defId }

/-- TaskService.add_tasks_to_bpmn_process: iterate the serialized task
dictionary in order; skip the Root task, prune speculative tasks from their
buffered parents, and find-or-create then update and buffer every other
task. -/
def add_tasks_to_bpmn_process (ctx : Ctx) (s : PassState)
    (tasks : List (String × TaskProps)) (spiff_workflow : Nat)
    (bpmn_process : BpmnProcessModel) : Except RunErr PassState :=
  match tasks with
  | [] => .ok s
  | (task_id, task_properties) :: rest =>
    if task_properties.task_spec = "Root" then
      add_tasks_to_bpmn_process ctx s rest spiff_workflow bpmn_process
    else
      match alistGet task_id ctx.tasks with
      | none => .error .modelCrash
      | some spiff_task =>
        if has_state spiff_task PREDICTED_MASK then
          match remove_spiff_task_from_parent spiff_task s.task_models with
          | .error e => .error e
          | .ok tms =>
            add_tasks_to_bpmn_process ctx { s with task_models := tms }
              rest spiff_workflow bpmn_process
        else
          let found : Except RunErr TaskModel :=
            match dbTaskByGuid ctx task_id with
            | some row => .ok row
            | none => _create_task ctx bpmn_process s.process_instance spiff_task
          match found with
          | .error e => .error e
          | .ok tm0 =>
            match update_task_model ctx s tm0 spiff_task with
            | .error e => .error e
            | .ok (s1, tm1) =>
              add_tasks_to_bpmn_process ctx
                { s1 with task_models := alistInsert tm1.guid tm1 s1.task_models }
                rest spiff_workflow bpmn_process

/-- TaskService._task_subprocess: when the owning workflow is not the
outermost one, scan the outermost subprocess map for the entry equal (by
identity) to the owning workflow and return its guid and workflow. -/
def _task_subprocess (ctx : Ctx) (spiff_task : SpiffTaskNode) : Option String × Option Nat :=
  let top_level_workflow := ctx.top
  let my_wf := spiff_task.wf
  if my_wf ≠ top_level_workflow then
    match ctx.subprocesses.find? (fun p => p.2 == my_wf) with
    | some p => (some p.1, some p.2)
    | none => (none, none)
  else (none, none)

/-- The loop body of the direct-parent scan in add_bpmn_process: compare
one subprocess context against the new workflow's outer workflow; on a
match, replace the accumulated parent with the row stored for the context's
guid, raising BpmnProcessNotFoundError when that row is absent. -/
def subprocess_parent_step (ctx : Ctx) (outer : Nat) :
    Except RunErr BpmnProcessModel → (String × Nat) → Except RunErr BpmnProcessModel :=
  fun acc p =>
    match acc with
    | .error e => .error e
    | .ok cur =>
      if p.2 = outer then
        match dbProcessByGuid ctx p.1 with
        | none => .error (.bpmnProcessNotFound
            ("Could not find bpmn process with guid: " ++ p.1))
        | some m => .ok m
      else .ok cur

/-- TaskService.add_bpmn_process.  Looks up or creates the process row; for
a new nested row (a top level process was given), the direct parent starts
out as the given top level process and is replaced by the row of the last
subprocess context equal to the new workflow's outer workflow, raising
BpmnProcessNotFoundError when a matching context has no persisted row; then
the root pointer is repointed to the Start task, the snapshot and payload
hash are written, the top level pointer is set, the row joins the session,
and the tasks of a new row are added. -/
def add_bpmn_process (ctx : Ctx) (s : PassState) (bpmn_process_dict : WorkflowDict)
    (spiff_workflow : Nat) (top_level_process : Option BpmnProcessModel)
    (bpmn_process_guid : Option String) : Except RunErr (PassState × BpmnProcessModel) :=
  let tasks := bpmn_process_dict.tasks
  let bpmn_process_data_dict := bpmn_process_dict.data
  let existing : Option BpmnProcessModel :=
    match top_level_process with
    | some tlp => dbProcessByTopAndGuid ctx tlp.id bpmn_process_guid
    | none =>
      if s.process_instance.bpmn_process_id ≠ none then s.process_instance.bpmn_process else none
  let created : Except RunErr (Bool × BpmnProcessModel × PassState) :=
    match existing with
    | some bp => .ok (false, bp, s)
    | none =>
      match alistGet spiff_workflow ctx.workflows with
      | none => .error .modelCrash
      | some wfi =>
        match alistGet wfi.spec_name ctx.bpmnDefs with
        | none => .error .modelCrash
        | some defId =>
          let bp0 : BpmnProcessModel :=
            { id := s.next_id, guid := bpmn_process_guid,
              bpmn_process_definition_id := some defId }
          let s0 := { s with next_id := s.next_id + 1 }
          match top_level_process with
          | none => .ok (true, bp0, s0)
          | some tlp =>
            let parentFound : Except RunErr BpmnProcessModel :=
              ctx.subprocesses.foldl (subprocess_parent_step ctx wfi.outer) (.ok tlp)
            match parentFound with
            | .error e => .error e
            | .ok par =>
              .ok (true, { bp0 with direct_parent_process_id := some par.id }, s0)
  match created with
  | .error e => .error e
  | .ok (bpmn_process_is_new, bp1, s1) =>
    let root1 := tasks.foldl
      (fun acc p => if p.2.task_spec = "Start" then some p.1 else acc)
      bpmn_process_dict.root
    let newProps : BpmnProps :=
      { root := root1
        last_task := bpmn_process_dict.last_task
        success := bpmn_process_dict.success }
    let bp2 := { bp1 with properties_json := some newProps }
    let r := update_task_data_on_bpmn_process bp2 bpmn_process_data_dict
    let s2 := match r.2 with
      | some jd => { s1 with json_data_dicts := alistInsert jd.hash jd s1.json_data_dicts }
      | none => s1
    let bpAndS : BpmnProcessModel × PassState :=
      match top_level_process with
      | none =>
        let newPi : ProcessInstanceModel :=
          { s2.process_instance with bpmn_process := some r.1, bpmn_process_id := some r.1.id }
        (r.1, { s2 with process_instance := newPi })
      | some tlp =>
        if r.1.top_level_process_id = none then
          ({ r.1 with top_level_process_id := some tlp.id }, s2)
        else (r.1, s2)
    let s3 := { bpAndS.2 with
      session_processes := bpAndS.2.session_processes ++ [bpAndS.1] }
    if bpmn_process_is_new then
      match add_tasks_to_bpmn_process ctx s3 tasks spiff_workflow bpAndS.1 with
      | .error e => .error e
      | .ok s4 => .ok (s4, bpAndS.1)
    else .ok (s3, bpAndS.1)

/-- TaskService.task_bpmn_process: the process row owning a task, creating
it (top level or nested) when absent. -/
def task_bpmn_process (ctx : Ctx) (s : PassState) (spiff_task : SpiffTaskNode) :
    Except RunErr (PassState × BpmnProcessModel) :=
  let sub := _task_subprocess ctx spiff_task
  match sub.2 with
  | none =>
    if s.process_instance.bpmn_process_id = none then
      match alistGet ctx.top ctx.workflows with
      | none => .error .modelCrash
      | some wfi => add_bpmn_process ctx s wfi.serialized ctx.top none none
    else
      match s.process_instance.bpmn_process with
      | some bp => .ok (s, bp)
      | none => .error .modelCrash
  | some subprocess_wf =>
    match sub.1 with
    | none => .error .modelCrash
    | some subprocess_guid =>
      match dbProcessByGuid ctx subprocess_guid with
      | some bp => .ok (s, bp)
      | none =>
        match alistGet subprocess_wf ctx.workflows with
        | none => .error .modelCrash
        | some subwfi =>
          add_bpmn_process ctx s subwfi.serialized spiff_task.wf
            s.process_instance.bpmn_process (some subprocess_guid)

/-- TaskService.find_or_create_task_model_from_spiff_task: the stored row by
guid when one exists, otherwise resolve (possibly creating) the owning
process and construct a fresh unsaved row with its foreign keys. -/
def find_or_create_task_model_from_spiff_task (ctx : Ctx) (s : PassState)
    (spiff_task : SpiffTaskNode) :
    Except RunErr (PassState × Option BpmnProcessModel × TaskModel) :=
  let spiff_task_guid := spiff_task.id
  match dbTaskByGuid ctx spiff_task_guid with
  | some task_model => .ok (s, none, task_model)
  | none =>
    match task_bpmn_process ctx s spiff_task with
    | .error e => .error e
    | .ok (s1, bpmn_process) =>
      match dbTaskByGuid ctx spiff_task_guid with
      | some task_model => .ok (s1, some bpmn_process, task_model)
      | none =>
        match alistGet spiff_task.wf ctx.workflows with
        | none => .error .modelCrash
        | some wfi =>
          match alistGet (wfi.spec_name, spiff_task.task_spec) ctx.taskDefs with
          | none => .error .modelCrash
          | some defId =>
            .ok (s1, some bpmn_process,
              { guid := spiff_task_guid, bpmn_process_id := some bpmn_process.id,
                process_instance_id := s1.process_instance.id,
                task_definition_id := defId })

/-- TaskService.update_bpmn_process: refresh last_task and success on the
snapshot from the live workflow, refresh the payload hash, buffer the row
under its guid (or the top_level sentinel when the guid is null or empty by
Python truthiness), and recurse outward while the workflow is not its own
outer workflow.  A missing parent row is a crash, as the source would pass
None into the recursive call. -/
def update_bpmn_process (fuel : Nat) (ctx : Ctx) (s : PassState)
    (spiff_workflow : Nat) (bpmn_process : BpmnProcessModel) : Except RunErr PassState :=
  match fuel with
  | 0 => .error .modelCrash
  | fuel + 1 =>
    match alistGet spiff_workflow ctx.workflows with
    | none => .error .modelCrash
    | some wfi =>
      match bpmn_process.properties_json with
      | none => .error .modelCrash
      | some props =>
        let newProps : BpmnProps :=
          { props with last_task := wfi.last_task, success := wfi.success }
        let bp1 := { bpmn_process with properties_json := some newProps }
        let r := update_task_data_on_bpmn_process bp1 wfi.data
        let s1 := match r.2 with
          | some jd => { s with json_data_dicts := alistInsert jd.hash jd s.json_data_dicts }
          | none => s
        let newBps := alistInsert (py_or_string r.1.guid "top_level") r.1 s1.bpmn_processes
        let s2 := { s1 with bpmn_processes := newBps }
        if wfi.outer ≠ spiff_workflow then
          match r.1.direct_parent_process_id with
          | none => .error .modelCrash
          | some pid =>
            match dbProcessById ctx pid with
            | none => .error .modelCrash
            | some direct_parent =>
              update_bpmn_process fuel ctx s2 wfi.outer direct_parent
        else .ok s2

/-- TaskService.update_task_model_with_spiff_task.  The buffered row wins
over find-or-create; the owning process row is the created one or the
stored row of the foreign key (the relationship read and the fallback query
are the same table lookup); the task snapshot update runs, the workflow
payload is hashed onto the process row, the final row value is buffered
(the source buffers the object and then mutates start and end in place, so
the buffer holds the final value), a task_completed lifecycle event is
buffered exactly for the COMPLETED state with the truthiness-selected
timestamp, and the process bookkeeping walk runs outward. -/
def update_task_model_with_spiff_task (fuel : Nat) (ctx : Ctx) (s : PassState)
    (spiff_task : SpiffTaskNode) (start_and_end_times : Option StartAndEndTimes) :
    Except RunErr (PassState × TaskModel) :=
  let initial : Except RunErr (PassState × Option BpmnProcessModel × TaskModel) :=
    match alistGet spiff_task.id s.task_models with
    | some task_model => .ok (s, none, task_model)
    | none => find_or_create_task_model_from_spiff_task ctx s spiff_task
  match initial with
  | .error e => .error e
  | .ok (s1, new_bpmn_process, task_model) =>
    let bpFallback : Option BpmnProcessModel :=
      match new_bpmn_process with
      | some bp => some bp
      | none => task_model.bpmn_process_id.bind (dbProcessById ctx)
    match bpFallback with
    | none => .error .modelCrash
    | some bpmn_process =>
      match update_task_model ctx s1 task_model spiff_task with
      | .error e => .error e
      | .ok (s2, tm1) =>
        match alistGet spiff_task.wf ctx.workflows with
        | none => .error .modelCrash
        | some wfi =>
          let r := update_task_data_on_bpmn_process bpmn_process wfi.data
          let s3 := match r.2 with
            | some jd => { s2 with json_data_dicts := alistInsert jd.hash jd s2.json_data_dicts }
            | none => s2
          let tm2 := match start_and_end_times with
            | some ts =>
              { tm1 with
                  start_in_seconds := ts.start_in_seconds
                  end_in_seconds := ts.end_in_seconds }
            | none => tm1
          let s4 := { s3 with task_models := alistInsert tm2.guid tm2 s3.task_models }
          let s5 :=
            if tm2.state = some "COMPLETED" then
              let timestamp := py_or_rat tm2.end_in_seconds
                                 (py_or_rat tm2.start_in_seconds ctx.now)
              let ev : EventModel :=
                { task_guid := tm2.guid, event_type := "task_completed", timestamp := timestamp }
              let newEvs := alistInsert tm2.guid ev s4.process_instance_events
              { s4 with process_instance_events := newEvs }
            else s4
          match update_bpmn_process fuel ctx s5 spiff_task.wf r.1 with
          | .error e => .error e
          | .ok s6 => .ok (s6, tm2)

/-- The loop body of TaskService.process_spiff_task_children over a child
guid list: prune speculative children from their buffered parents, update
and recurse into every other child. -/
def process_spiff_task_children_go (fuel : Nat) (ctx : Ctx) (s : PassState)
    (children : List String) : Except RunErr PassState :=
  match children with
  | [] => .ok s
  | cid :: rest =>
    match alistGet cid ctx.tasks with
    | none => .error .modelCrash
    | some child =>
      if has_state child PREDICTED_MASK then
        match remove_spiff_task_from_parent child s.task_models with
        | .error e => .error e
        | .ok tms =>
          process_spiff_task_children_go fuel ctx { s with task_models := tms } rest
      else
        match fuel with
        | 0 => .error .modelCrash
        | fuel + 1 =>
          match update_task_model_with_spiff_task fuel ctx s child none with
          | .error e => .error e
          | .ok (s1, _tm) =>
            match process_spiff_task_children_go fuel ctx s1 child.children with
            | .error e => .error e
            | .ok s2 => process_spiff_task_children_go (fuel + 1) ctx s2 rest
  termination_by (fuel, children.length)

/-- TaskService.process_spiff_task_children. -/
def process_spiff_task_children (fuel : Nat) (ctx : Ctx) (s : PassState)
    (spiff_task : SpiffTaskNode) : Except RunErr PassState :=
  process_spiff_task_children_go fuel ctx s spiff_task.children

/-- The batch flushed by one call of save_objects_to_database. -/
structure SaveBatches where
  bpmn_processes : List BpmnProcessModel
  task_models : List TaskModel
  process_instance_events : List EventModel
  json_data_records : List JsonDataDict

/-- TaskService.insert_or_update_json_data_records: the record list handed
to the storage upsert is the value list of the hash-keyed buffer (the
upsert itself is the storage layer's conflict-tolerant insert). -/
def insert_or_update_json_data_records
    (json_data_hash_to_json_data_dict_mapping : List (String × JsonDataDict)) :
    List JsonDataDict :=
  json_data_hash_to_json_data_dict_mapping.map (fun p => p.2)

/-- TaskService.save_objects_to_database: one batch per buffer, each batch
being exactly the buffered values. -/
def save_objects_to_database (s : PassState) : SaveBatches :=
  { bpmn_processes := s.bpmn_processes.map (fun p => p.2),
    task_models := s.task_models.map (fun p => p.2),
    process_instance_events := s.process_instance_events.map (fun p => p.2),
    json_data_records := insert_or_update_json_data_records s.json_data_dicts }

/-- TaskService.task_models_of_parent_bpmn_processes: walk from the owning
process outward, collecting enclosing process rows and boundary task rows,
prepending the recursive result; with the stop flag, stop inclusively at
the first boundary task typed CallActivity.  Missing rows where the source
would read attributes of None are crashes. -/
def task_models_of_parent_bpmn_processes (fuel : Nat) (ctx : Ctx)
    (task_model : TaskModel) (stop_on_first_call_activity : Bool) :
    Except RunErr (List BpmnProcessModel × List TaskModel) :=
  match fuel with
  | 0 => .error .modelCrash
  | fuel + 1 =>
    match task_model.bpmn_process_id.bind (dbProcessById ctx) with
    | none => .error .modelCrash
    | some bpmn_process =>
      match bpmn_process.guid with
      | none => .ok ([bpmn_process], [])
      | some g =>
        match dbTaskByGuid ctx g with
        | none => .error .modelCrash
        | some parent_task_model =>
          if stop_on_first_call_activity then
            match alistGet parent_task_model.task_definition_id ctx.taskDefTypenames with
            | none => .error .modelCrash
            | some typename =>
              if typename ≠ "CallActivity" then
                match task_models_of_parent_bpmn_processes fuel ctx parent_task_model
                        stop_on_first_call_activity with
                | .error e => .error e
                | .ok (b, t) => .ok (b ++ [bpmn_process], t ++ [parent_task_model])
              else .ok ([bpmn_process], [parent_task_model])
          else
            match task_models_of_parent_bpmn_processes fuel ctx parent_task_model
                    stop_on_first_call_activity with
            | .error e => .error e
            | .ok (b, t) => .ok (b ++ [bpmn_process], t ++ [parent_task_model])

/-- Specification-side ancestor walk, innermost-first: from a task model,
take the owning process row and its boundary task row, then repeat from the
boundary task, ending at the top level process (null guid) or, when
requested, inclusively at the first boundary task typed CallActivity.  The
walk makes the same row lookups as the implementation; the implementation
is proved to return exactly this chain reversed, hence outermost-first. -/
def ancestor_chain_innermost_first (fuel : Nat) (ctx : Ctx)
    (task_model : TaskModel) (stop_on_first_call_activity : Bool) :
    Except RunErr (List BpmnProcessModel × List TaskModel) :=
  match fuel with
  | 0 => .error .modelCrash
  | fuel + 1 =>
    match task_model.bpmn_process_id.bind (dbProcessById ctx) with
    | none => .error .modelCrash
    | some bpmn_process =>
      match bpmn_process.guid with
      | none => .ok ([bpmn_process], [])
      | some g =>
        match dbTaskByGuid ctx g with
        | none => .error .modelCrash
        | some parent_task_model =>
          if stop_on_first_call_activity then
            match alistGet parent_task_model.task_definition_id ctx.taskDefTypenames with
            | none => .error .modelCrash
            | some typename =>
              if typename ≠ "CallActivity" then
                match ancestor_chain_innermost_first fuel ctx parent_task_model
                        stop_on_first_call_activity with
                | .error e => .error e
                | .ok (b, t) => .ok (bpmn_process :: b, parent_task_model :: t)
              else .ok ([bpmn_process], [parent_task_model])
          else
            match ancestor_chain_innermost_first fuel ctx parent_task_model
                    stop_on_first_call_activity with
            | .error e => .error e
            | .ok (b, t) => .ok (bpmn_process :: b, parent_task_model :: t)

/-- TaskService.bpmn_process_and_descendants: append the rows whose direct
parent pointer falls in the given id set and recurse on them; the level
recursion carries fuel (it terminates in the source only because the stored
parent graph is acyclic), and exhausted fuel returns the input, which only
weakens completeness, never the soundness facts proved below. -/
def bpmn_process_and_descendants (fuel : Nat) (ctx : Ctx)
    (bpmn_processes : List BpmnProcessModel) : List BpmnProcessModel :=
  match fuel with
  | 0 => bpmn_processes
  | fuel + 1 =>
    let bpmn_process_ids := bpmn_processes.map (fun p => p.id)
    let direct_children := ctx.dbProcesses.filter
      (fun p => match p.direct_parent_process_id with
                | some i => bpmn_process_ids.contains i
                | none => false)
    if 0 < direct_children.length then
      bpmn_processes ++ bpmn_process_and_descendants fuel ctx direct_children
    else bpmn_processes

end TaskService

end SpiffArena

namespace SpiffArena

/-- The snapshot update_task_model stores: the serializer dictionary with
the parent forced to null for the Start task spec. -/
def snapshotOf (st : SpiffTaskNode) : TaskProps :=
  { task_spec := st.task_spec
    parent := if st.task_spec = "Start" then none else st.parent
    children := st.children
    state := st.state }

/-- Concrete task model whose stored json hash already equals the hash of
the empty payload. -/
def c3tm : TaskModel := { guid := "t1", json_data_hash := some (json_hash (.jobj [])) }

/-! ## Concrete scenario inputs used by witnesses and counterexamples -/

/-- An empty engine and database context with a top level workflow token. -/
def c9ctx : Ctx :=
  { tasks := []
    workflows := []
    top := 1
    subprocesses := []
    pythonEnv := .jobj []
    now := 100
    dbTasks := []
    dbProcesses := []
    taskDefs := []
    bpmnDefs := []
    taskDefTypenames := [] }

/-- A process instance row for witness runs. -/
def c9pi : ProcessInstanceModel := { id := 1 }

/-- A fresh pass state for witness runs. -/
def c9s : PassState := { process_instance := c9pi }

/-- A completed live task used by the C9 witness. -/
def c9st : SpiffTaskNode :=
  { id := "t9"
    state := 64
    parent := some "p9"
    children := []
    task_spec := "Script"
    data := .jobj []
    wf := 1 }

/-- The buffered task row the C9 witness updates. -/
def c9tm : TaskModel := { guid := "t9" }

/-- The C9 witness run. -/
def c9res := TaskService.update_task_model c9ctx c9s c9tm c9st

/-- The pass state of the C9 witness run. -/
def c9s2 : PassState := match c9res with | .ok p => p.1 | .error _ => c9s

/-- The task row of the C9 witness run. -/
def c9tm2 : TaskModel := match c9res with | .ok p => p.2 | .error _ => c9tm

/-- The failing input of claim C2: a task row whose python env hash column
holds an old digest when reset_task_model runs with default hash
arguments. -/
def c2tm : TaskModel :=
  { guid := "t2"
    state := some "COMPLETED"
    properties_json := some { task_spec := "Script", parent := some "x", children := [], state := 64 }
    json_data_hash := some "0000000000000000000000000000000000000000000000000000000000000000"
    python_env_data_hash := some "1111111111111111111111111111111111111111111111111111111111111111"
    start_in_seconds := some 3
    end_in_seconds := some 4 }

/-- The C2 run: reset_task_model(c2tm, "READY") with default hashes. -/
def c2res := TaskService.reset_task_model c2tm "READY" none none

/-- The task row c2res produces. -/
def c2tm2 : TaskModel := match c2res with | .ok t => t | .error _ => c2tm

/-- A process row transitively descends into a given id set: its direct
parent pointer hits the set, or hits the id of a database row that itself
descends into the set. -/
inductive DescendsInto (ctx : Ctx) (ids : List Nat) : BpmnProcessModel → Prop where
  | direct (q : BpmnProcessModel) (i : Nat) :
      q.direct_parent_process_id = some i → i ∈ ids → DescendsInto ctx ids q
  | step (q r : BpmnProcessModel) :
      r ∈ ctx.dbProcesses → q.direct_parent_process_id = some r.id →
      DescendsInto ctx ids r → DescendsInto ctx ids q

/-- A childless process row used by the C10 witness. -/
def c10p : BpmnProcessModel := { id := 7 }

/-- A context whose process table holds only the childless row. -/
def c10ctx : Ctx :=
  { tasks := []
    workflows := []
    top := 1
    subprocesses := []
    pythonEnv := .jobj []
    now := 100
    dbTasks := []
    dbProcesses := [c10p]
    taskDefs := []
    bpmnDefs := []
    taskDefTypenames := [] }

/-- The top level process row used by the C7 witness database. -/
def c7top : BpmnProcessModel := { id := 1 }

/-- A nested process row whose boundary task is a call activity. -/
def c7sub1 : BpmnProcessModel :=
  { id := 2, guid := some "b1g", direct_parent_process_id := some 1,
    top_level_process_id := some 1 }

/-- A nested process row inside c7sub1. -/
def c7sub2 : BpmnProcessModel :=
  { id := 3, guid := some "b2g", direct_parent_process_id := some 2,
    top_level_process_id := some 1 }

/-- The boundary task of c7sub1, typed CallActivity. -/
def c7b1 : TaskModel := { guid := "b1g", bpmn_process_id := some 1, task_definition_id := 21 }

/-- The boundary task of c7sub2, typed SubWorkflowTask. -/
def c7b2 : TaskModel := { guid := "b2g", bpmn_process_id := some 2, task_definition_id := 20 }

/-- A task inside c7sub2 from which the C7 witness walk starts. -/
def c7tm : TaskModel := { guid := "s1", bpmn_process_id := some 3, task_definition_id := 22 }

/-- The C7 witness database context. -/
def c7ctx : Ctx :=
  { tasks := []
    workflows := []
    top := 1
    subprocesses := []
    pythonEnv := .jobj []
    now := 0
    dbTasks := [c7b1, c7b2, c7tm]
    dbProcesses := [c7top, c7sub1, c7sub2]
    taskDefs := []
    bpmnDefs := []
    taskDefTypenames := [(20, "SubWorkflowTask"), (21, "CallActivity"), (22, "ScriptTask")] }

/-- The C7 witness run with the stop flag set. -/
def c7res := TaskService.task_models_of_parent_bpmn_processes 3 c7ctx c7tm true

/-- Process list of the C7 witness run. -/
def c7bs : List BpmnProcessModel := match c7res with | .ok p => p.1 | .error _ => []

/-- Task list of the C7 witness run. -/
def c7ts : List TaskModel := match c7res with | .ok p => p.2 | .error _ => []

/-- The given top level process of the C4 scenario. -/
def c4tlp : BpmnProcessModel := { id := 3 }

/-- An empty serialized workflow dictionary. -/
def c4wd : WorkflowDict :=
  { tasks := [], data := .jobj [], root := none, last_task := none, success := true }

/-- The new nested workflow of the C4 scenario: its outer workflow is the
top level workflow 5, which no subprocess context equals. -/
def c4wfi : SpiffWorkflowInfo :=
  { outer := 5, data := .jobj [], last_task := none, success := true,
    spec_name := "ProcB", serialized := c4wd }

/-- The C4 context: one subprocess context (workflow 7) that does not match
the new workflow's outer workflow 5. -/
def c4ctx : Ctx :=
  { tasks := []
    workflows := [(9, c4wfi)]
    top := 5
    subprocesses := [("sg", 7)]
    pythonEnv := .jobj []
    now := 0
    dbTasks := []
    dbProcesses := []
    taskDefs := []
    bpmnDefs := [("ProcB", 50)]
    taskDefTypenames := [] }

/-- The C4 pass state. -/
def c4s : PassState := { process_instance := { id := 1 } }

/-- The C4 run: creating the nested process row with no matching parent
context. -/
def c4res := TaskService.add_bpmn_process c4ctx c4s c4wd 9 (some c4tlp) (some "newg")

/-- Pass state of the C4 run. -/
def c4s2 : PassState := match c4res with | .ok p => p.1 | .error _ => c4s

/-- Process row of the C4 run. -/
def c4bp : BpmnProcessModel := match c4res with | .ok p => p.2 | .error _ => c4tlp

/-- A variant of the C4 context whose only subprocess context equals the
new workflow's outer workflow but has no persisted row. -/
def c4bctx : Ctx := { c4ctx with subprocesses := [("sg", 5)] }

/-- A persisted process row for the matching subprocess context. -/
def c4row : BpmnProcessModel := { id := 8, guid := some "sg" }

/-- A variant of the C4 context whose only subprocess context equals the
new workflow's outer workflow and does have a persisted row: the normal
nested-creation path. -/
def c4cctx : Ctx := { c4ctx with subprocesses := [("sg", 5)], dbProcesses := [c4row] }

/-- The workflow info of the C5 run: a top level workflow that is its own
outer workflow, with an empty payload. -/
def c5wfi : SpiffWorkflowInfo :=
  { outer := 1
    data := .jobj []
    last_task := none
    success := false
    spec_name := "Proc5"
    serialized :=
      { tasks := []
        data := .jobj []
        root := none
        last_task := none
        success := false } }

/-- The stored process row owning the C5 task. -/
def c5bp : BpmnProcessModel :=
  { id := 3
    guid := some "bp5"
    properties_json := some { root := none, last_task := none, success := false } }

/-- The context of the C5 run. -/
def c5ctx : Ctx :=
  { tasks := []
    workflows := [(1, c5wfi)]
    top := 1
    subprocesses := []
    pythonEnv := .jobj []
    now := 100
    dbTasks := []
    dbProcesses := [c5bp]
    taskDefs := []
    bpmnDefs := []
    taskDefTypenames := [] }

/-- The buffered task row of the C5 run, pointing at the stored process. -/
def c5tm : TaskModel := { guid := "t5", bpmn_process_id := some 3 }

/-- The pass state of the C5 run, with the task row already buffered. -/
def c5s : PassState :=
  { process_instance := { id := 1 }
    task_models := [("t5", c5tm)] }

/-- The completed live task of the C5 run. -/
def c5st : SpiffTaskNode :=
  { id := "t5"
    state := 64
    parent := none
    children := []
    task_spec := "Script"
    data := .jobj []
    wf := 1 }

/-- The explicit times handed to the C5 run: a start of 5 seconds and an
end of exactly 0 seconds, both present. -/
def c5times : StartAndEndTimes := { start_in_seconds := some 5, end_in_seconds := some 0 }

/-- The C5 run. -/
def c5res := TaskService.update_task_model_with_spiff_task 1 c5ctx c5s c5st (some c5times)

/-- The pass state the C5 run produces. -/
def c5s2v : PassState := match c5res with | .ok p => p.1 | .error _ => c5s

/-- The task row the C5 run produces. -/
def c5tm2v : TaskModel := match c5res with | .ok p => p.2 | .error _ => c5tm

/-- Every pass buffer keyed by identity holds no duplicate key: task models
by guid, process rows by guid (or the top_level sentinel), payload records
by content hash, lifecycle events by task guid. -/
def buffersNodupKeys (s : PassState) : Prop :=
  (s.task_models.map Prod.fst).Nodup ∧
  (s.bpmn_processes.map Prod.fst).Nodup ∧
  (s.json_data_dicts.map Prod.fst).Nodup ∧
  (s.process_instance_events.map Prod.fst).Nodup

/-- A childless completed live task driving the C8 witness run. -/
def c8st : SpiffTaskNode :=
  { id := "t8"
    state := 64
    parent := none
    children := []
    task_spec := "Script"
    data := .jobj []
    wf := 1 }

/-- A fresh pass state for the C8 witness run. -/
def c8s : PassState := { process_instance := { id := 1 } }

mutual
/-- Well-formed JSON payload: every object has pairwise distinct keys, as
payloads coming from Python dicts always do. -/
def jwf : JVal → Bool
  | .null => true
  | .jbool _ => true
  | .jnum _ => true
  | .jstr _ => true
  | .jarr xs => jwfList xs
  | .jobj kvs => decide ((kvs.map Prod.fst).Nodup) && jwfEntries kvs

/-- jwf over an array. -/
def jwfList : List JVal → Bool
  | [] => true
  | x :: t => jwf x && jwfList t

/-- jwf over the values of an object entry list. -/
def jwfEntries : List (String × JVal) → Bool
  | [] => true
  | p :: t => jwf p.2 && jwfEntries t
end

/-- Structural equality of JSON payloads up to object key order: scalars
equal, arrays pointwise equivalent, objects carrying the same keys (possibly
supplied in different orders) with equivalent values per key. -/
inductive JEquiv : JVal → JVal → Prop where
  | null : JEquiv .null .null
  | bool (b : Bool) : JEquiv (.jbool b) (.jbool b)
  | num (n : Int) : JEquiv (.jnum n) (.jnum n)
  | str (s : String) : JEquiv (.jstr s) (.jstr s)
  | arr_nil : JEquiv (.jarr []) (.jarr [])
  | arr_cons (x y : JVal) (xs ys : List JVal) :
      JEquiv x y → JEquiv (.jarr xs) (.jarr ys) →
      JEquiv (.jarr (x :: xs)) (.jarr (y :: ys))
  | obj (xs ys : List (String × JVal)) :
      (xs.map Prod.fst).Perm (ys.map Prod.fst) →
      (∀ k v w, (k, v) ∈ xs → (k, w) ∈ ys → JEquiv v w) →
      JEquiv (.jobj xs) (.jobj ys)

/-- A two-key payload with the keys supplied out of order. -/
def c6v : JVal := .jobj [("b", .jnum 2), ("a", .jnum 1)]

/-- The same payload with its keys supplied in order. -/
def c6w : JVal := .jobj [("a", .jnum 1), ("b", .jnum 2)]

/-- The ids of the speculative (predicted-state) tasks a pass over a
serialized task dictionary prunes: the non-Root entries whose live node
carries a predicted state. -/
def prunedIds (ctx : Ctx) : List (String × TaskProps) → List String
  | [] => []
  | q :: t =>
    if q.2.task_spec = "Root" then prunedIds ctx t
    else
      match alistGet q.1 ctx.tasks with
      | some node =>
        if has_state node PREDICTED_MASK then node.id :: prunedIds ctx t
        else prunedIds ctx t
      | none => prunedIds ctx t

/-- Visit-order discipline: once a speculative task is pruned, no task
visited later lists the pruned id among its live children.  This holds in
particular when every parent is visited before its children, as the
serializer emits them. -/
def prunedNotReintroduced (ctx : Ctx) : List (String × TaskProps) → Bool
  | [] => true
  | q :: t =>
    (if q.2.task_spec = "Root" then true
     else
       match alistGet q.1 ctx.tasks with
       | some node =>
         if has_state node PREDICTED_MASK then
           t.all (fun q2 =>
             match alistGet q2.1 ctx.tasks with
             | some node2 => decide (node.id ∉ node2.children)
             | none => true)
         else true
       | none => true) && prunedNotReintroduced ctx t

/-- The buffered task rows are consistent snapshots: every buffered row has
a snapshot whose children come from the corresponding live node (with
duplicates never introduced), and no id of the pruned set P remains in any
buffered children list. -/
def BufOkP (ctx : Ctx) (P : List String) (tms : List (String × TaskModel)) : Prop :=
  ∀ g tm, alistGet g tms = some tm →
    ∃ props gnode, tm.properties_json = some props ∧
      alistGet g ctx.tasks = some gnode ∧
      (∀ x ∈ props.children, x ∈ gnode.children) ∧
      props.children.Nodup ∧
      (∀ cid ∈ P, cid ∉ props.children)

/-- The live Root task of the C1 scenarios. -/
def c1rNode : SpiffTaskNode :=
  { id := "r"
    state := 64
    parent := none
    children := ["p"]
    task_spec := "Root"
    data := .jobj []
    wf := 1 }

/-- The live speculative child task of the C1 scenarios. -/
def c1cNode : SpiffTaskNode :=
  { id := "c"
    state := 1
    parent := some "p"
    children := []
    task_spec := "Script"
    data := .jobj []
    wf := 1 }

/-- The live parent task of the C1 scenarios, listing the speculative child. -/
def c1pNode : SpiffTaskNode :=
  { id := "p"
    state := 16
    parent := some "r"
    children := ["c"]
    task_spec := "Script"
    data := .jobj []
    wf := 1 }

/-- The context of the C1 scenarios. -/
def c1ctx : Ctx :=
  { tasks := [("r", c1rNode), ("c", c1cNode), ("p", c1pNode)]
    workflows := [(1, c5wfi)]
    top := 1
    subprocesses := []
    pythonEnv := .jobj []
    now := 100
    dbTasks := []
    dbProcesses := []
    taskDefs := [(("Proc5", "Script"), 7)]
    bpmnDefs := []
    taskDefTypenames := [] }

/-- The serialized dictionary entry of the Root task. -/
def c1rProps : TaskProps := { task_spec := "Root", parent := none, children := ["p"], state := 64 }

/-- The serialized dictionary entry of the speculative child. -/
def c1cProps : TaskProps := { task_spec := "Script", parent := some "p", children := [], state := 1 }

/-- The serialized dictionary entry of the parent. -/
def c1pProps : TaskProps :=
  { task_spec := "Script", parent := some "r", children := ["c"], state := 16 }

/-- The counterexample visit order: the speculative child before its parent. -/
def c1tasks : List (String × TaskProps) := [("r", c1rProps), ("c", c1cProps), ("p", c1pProps)]

/-- The parents-first visit order of the same tasks. -/
def c1wtasks : List (String × TaskProps) := [("r", c1rProps), ("p", c1pProps), ("c", c1cProps)]

/-- The process row of the C1 scenarios. -/
def c1bp : BpmnProcessModel := { id := 3 }

/-- The fresh pass state of the C1 scenarios. -/
def c1s : PassState := { process_instance := { id := 1 } }

/-- The C1 counterexample run: child visited before parent. -/
def c1res := TaskService.add_tasks_to_bpmn_process c1ctx c1s c1tasks 1 c1bp

/-- The state the C1 counterexample run produces. -/
def c1s2v : PassState := match c1res with | .ok s => s | .error _ => c1s

/-- The buffered children list of the parent after the counterexample run. -/
def c1childrenOfP : Option (List String) :=
  match alistGet "p" c1s2v.task_models with
  | some tm => tm.properties_json.map (fun p => p.children)
  | none => none

/-- The C1 witness run: parents-first visit order. -/
def c1wres := TaskService.add_tasks_to_bpmn_process c1ctx c1s c1wtasks 1 c1bp

/-- The state the C1 witness run produces. -/
def c1ws2v : PassState := match c1wres with | .ok s => s | .error _ => c1s

/-! ## Basic lemmas about the buffer operations -/

@[simp]
theorem snapshotOf_state (st : SpiffTaskNode) : (snapshotOf st).state = st.state := rfl

theorem alistGet_alistInsert_self {κ α : Type} [DecidableEq κ] (k : κ) (v : α)
    (l : List (κ × α)) : alistGet k (alistInsert k v l) = some v := by
  induction l with
  | nil => simp [alistInsert, alistGet]
  | cons p t ih =>
    by_cases h : p.1 = k
    · simp [alistInsert, alistGet, h]
    · simp [alistInsert, alistGet, h, ih]

theorem alistGet_alistInsert_ne {κ α : Type} [DecidableEq κ] (k k2 : κ) (v : α)
    (l : List (κ × α)) (h : k2 ≠ k) :
    alistGet k2 (alistInsert k v l) = alistGet k2 l := by
  have h2 : k ≠ k2 := Ne.symm h
  induction l with
  | nil => simp [alistInsert, alistGet, h2]
  | cons p t ih =>
    by_cases hp : p.1 = k
    · subst hp
      simp [alistInsert, alistGet, h2]
    · simp only [alistInsert, if_neg hp, alistGet]
      by_cases hp2 : p.1 = k2 <;> simp [hp2, ih]

theorem mem_of_mem_alistInsert {κ α : Type} [DecidableEq κ] {k : κ} {v : α}
    {l : List (κ × α)} {p : κ × α} (h : p ∈ alistInsert k v l) :
    p = (k, v) ∨ p ∈ l := by
  induction l with
  | nil => simpa [alistInsert] using h
  | cons q t ih =>
    by_cases hq : q.1 = k
    · simp only [alistInsert, if_pos hq, List.mem_cons] at h
      rcases h with h | h
      · exact Or.inl h
      · exact Or.inr (List.mem_cons_of_mem q h)
    · simp only [alistInsert, if_neg hq, List.mem_cons] at h
      rcases h with h | h
      · exact Or.inr (h ▸ List.mem_cons_self q t)
      · rcases ih h with h2 | h2
        · exact Or.inl h2
        · exact Or.inr (List.mem_cons_of_mem q h2)

theorem mem_keys_alistInsert {κ α : Type} [DecidableEq κ] {a k : κ} {v : α}
    {l : List (κ × α)} (h : a ∈ (alistInsert k v l).map Prod.fst) :
    a = k ∨ a ∈ l.map Prod.fst := by
  obtain ⟨q, hq, he⟩ := List.mem_map.mp h
  rcases mem_of_mem_alistInsert hq with h2 | h2
  · left
    rw [← he, h2]
  · right
    exact he ▸ List.mem_map_of_mem Prod.fst h2

theorem nodupKeys_alistInsert {κ α : Type} [DecidableEq κ] (k : κ) (v : α)
    (l : List (κ × α)) (h : (l.map Prod.fst).Nodup) :
    ((alistInsert k v l).map Prod.fst).Nodup := by
  induction l with
  | nil => simp [alistInsert]
  | cons p t ih =>
    simp only [List.map_cons, List.nodup_cons] at h
    by_cases hp : p.1 = k
    · subst hp
      have he : alistInsert p.1 v (p :: t) = (p.1, v) :: t := by
        simp [alistInsert]
      rw [he]
      simp only [List.map_cons, List.nodup_cons]
      exact ⟨h.1, h.2⟩
    · simp only [alistInsert, if_neg hp, List.map_cons, List.nodup_cons]
      constructor
      · intro hm
        rcases mem_keys_alistInsert hm with h2 | h2
        · exact hp h2
        · exact h.1 h2
      · exact ih h.2

theorem alistGet_of_mem_nodup {κ α : Type} [DecidableEq κ] {l : List (κ × α)} {p : κ × α}
    (hnd : (l.map Prod.fst).Nodup) (h : p ∈ l) : alistGet p.1 l = some p.2 := by
  induction l with
  | nil => simp at h
  | cons q t ih =>
    simp only [List.map_cons, List.nodup_cons] at hnd
    rcases List.mem_cons.mp h with h | h
    · subst h
      simp [alistGet]
    · have hne : q.1 ≠ p.1 := by
        intro he
        exact hnd.1 (he ▸ List.mem_map_of_mem Prod.fst h)
      simp [alistGet, hne, ih hnd.2 h]

end SpiffArena

namespace SpiffArena

namespace TaskService

theorem getColumn_setColumn (tm : TaskModel) (c v : String) :
    getColumn (setColumn tm c v) c = some v := by
  unfold getColumn setColumn
  by_cases h1 : c = "json_data_hash"
  · simp [h1]
  · by_cases h2 : c = "python_env_data_hash"
    · simp [h1, h2]
    · simp [h1, h2, alistGet_alistInsert_self]

theorem setColumn_guid (tm : TaskModel) (c v : String) : (setColumn tm c v).guid = tm.guid := by
  unfold setColumn
  split
  · rfl
  · split <;> rfl

theorem setColumn_properties_json (tm : TaskModel) (c v : String) :
    (setColumn tm c v).properties_json = tm.properties_json := by
  unfold setColumn
  split
  · rfl
  · split <;> rfl

theorem setColumn_state (tm : TaskModel) (c v : String) :
    (setColumn tm c v).state = tm.state := by
  unfold setColumn
  split
  · rfl
  · split <;> rfl

theorem setColumn_start (tm : TaskModel) (c v : String) :
    (setColumn tm c v).start_in_seconds = tm.start_in_seconds := by
  unfold setColumn
  split
  · rfl
  · split <;> rfl

theorem setColumn_end (tm : TaskModel) (c v : String) :
    (setColumn tm c v).end_in_seconds = tm.end_in_seconds := by
  unfold setColumn
  split
  · rfl
  · split <;> rfl

theorem update_task_data_fst_guid (tm : TaskModel) (d : JVal) (col : String) :
    (update_task_data_on_task_model_and_return_dict_if_updated tm d col).1.guid = tm.guid := by
  unfold update_task_data_on_task_model_and_return_dict_if_updated
  by_cases h : getColumn tm col = some (sha256_hexdigest (dumps_sort_keys d))
  · simp [h]
  · simp [h, setColumn_guid]

theorem update_task_data_fst_properties (tm : TaskModel) (d : JVal) (col : String) :
    (update_task_data_on_task_model_and_return_dict_if_updated tm d col).1.properties_json
      = tm.properties_json := by
  unfold update_task_data_on_task_model_and_return_dict_if_updated
  by_cases h : getColumn tm col = some (sha256_hexdigest (dumps_sort_keys d))
  · simp [h]
  · simp [h, setColumn_properties_json]

theorem update_task_data_fst_state (tm : TaskModel) (d : JVal) (col : String) :
    (update_task_data_on_task_model_and_return_dict_if_updated tm d col).1.state = tm.state := by
  unfold update_task_data_on_task_model_and_return_dict_if_updated
  by_cases h : getColumn tm col = some (sha256_hexdigest (dumps_sort_keys d))
  · simp [h]
  · simp [h, setColumn_state]

end TaskService

/-- C3: for every task model (or process row) and payload, when the stored
hash already equals the payload's canonical hash the hash-compare update
returns no record and leaves the model unchanged, and running the same
update twice in a row always yields no record and no change the second
time. -/
theorem C3_hash_change_detection_idempotent :
    (∀ (tm : TaskModel) (d : JVal) (col : String),
        TaskService.getColumn tm col = some (json_hash d) →
        TaskService.update_task_data_on_task_model_and_return_dict_if_updated tm d col
          = (tm, none)) ∧
    (∀ (bp : BpmnProcessModel) (d : JVal),
        bp.json_data_hash = some (json_hash d) →
        TaskService.update_task_data_on_bpmn_process bp d = (bp, none)) ∧
    (∀ (tm : TaskModel) (d : JVal) (col : String),
        TaskService.update_task_data_on_task_model_and_return_dict_if_updated
          (TaskService.update_task_data_on_task_model_and_return_dict_if_updated tm d col).1 d col
          = ((TaskService.update_task_data_on_task_model_and_return_dict_if_updated tm d col).1,
             none)) ∧
    (∀ (bp : BpmnProcessModel) (d : JVal),
        TaskService.update_task_data_on_bpmn_process
          (TaskService.update_task_data_on_bpmn_process bp d).1 d
          = ((TaskService.update_task_data_on_bpmn_process bp d).1, none)) := by
  refine ⟨?_, ?_, ?_, ?_⟩
  · intro tm d col h
    unfold TaskService.update_task_data_on_task_model_and_return_dict_if_updated
    simp only [json_hash] at h
    simp [h]
  · intro bp d h
    unfold TaskService.update_task_data_on_bpmn_process
    simp only [json_hash] at h
    simp [h]
  · intro tm d col
    unfold TaskService.update_task_data_on_task_model_and_return_dict_if_updated
    by_cases h : TaskService.getColumn tm col = some (sha256_hexdigest (dumps_sort_keys d))
    · simp [h]
    · simp [h, TaskService.getColumn_setColumn]
  · intro bp d
    unfold TaskService.update_task_data_on_bpmn_process
    by_cases h : bp.json_data_hash = some (sha256_hexdigest (dumps_sort_keys d))
    · simp [h]
    · simp [h]

/-- Witness for C3 at a concrete model and payload. -/
theorem C3_witness :
    TaskService.getColumn c3tm "json_data_hash" = some (json_hash (.jobj [])) ∧
    TaskService.update_task_data_on_task_model_and_return_dict_if_updated
      c3tm (.jobj []) "json_data_hash" = (c3tm, none) :=
  ⟨rfl, C3_hash_change_detection_idempotent.1 c3tm (.jobj []) "json_data_hash" rfl⟩

end SpiffArena

namespace SpiffArena

end SpiffArena

namespace SpiffArena

/-- Characterization of a successful update_task_model run: the returned
row carries the serializer snapshot (with the Start parent forced to null)
and the matching state name, and only the json buffer of the pass state is
touched. -/
theorem update_task_model_spec (ctx : Ctx) (s : PassState) (tm : TaskModel)
    (st : SpiffTaskNode) (s2 : PassState) (tm2 : TaskModel)
    (h : TaskService.update_task_model ctx s tm st = .ok (s2, tm2)) :
    tm2.state = TaskStateNames st.state ∧
    tm2.guid = tm.guid ∧
    tm2.properties_json = some (snapshotOf st) ∧
    s2.task_models = s.task_models ∧
    s2.process_instance_events = s.process_instance_events ∧
    s2.bpmn_processes = s.bpmn_processes ∧
    s2.process_instance = s.process_instance ∧
    s2.session_processes = s.session_processes ∧
    s2.next_id = s.next_id ∧
    ((s.json_data_dicts.map Prod.fst).Nodup → (s2.json_data_dicts.map Prod.fst).Nodup) := by
  unfold TaskService.update_task_model at h
  simp only [task_to_dict] at h
  have hsnap : (if st.task_spec = "Start"
      then ({ task_spec := st.task_spec, parent := none, children := st.children,
              state := st.state } : TaskProps)
      else ({ task_spec := st.task_spec, parent := st.parent, children := st.children,
              state := st.state } : TaskProps))
      = snapshotOf st := by
    unfold snapshotOf
    by_cases hs : st.task_spec = "Start" <;> simp [hs]
  rw [hsnap, snapshotOf_state] at h
  split at h
  · exact absurd h (by simp)
  · rename_i nm hn
    split at h <;> split at h <;>
      (injection h with hpair
       have h2 := congrArg Prod.snd hpair
       have h1 := congrArg Prod.fst hpair
       simp only [] at h1 h2
       refine ⟨?_, ?_, ?_, ?_, ?_, ?_, ?_, ?_, ?_, ?_⟩
       · rw [← h2, TaskService.update_task_data_fst_state,
             TaskService.update_task_data_fst_state, hn]
       · rw [← h2, TaskService.update_task_data_fst_guid,
             TaskService.update_task_data_fst_guid]
       · rw [← h2, TaskService.update_task_data_fst_properties,
             TaskService.update_task_data_fst_properties]
       · rw [← h1]
       · rw [← h1]
       · rw [← h1]
       · rw [← h1]
       · rw [← h1]
       · rw [← h1]
       · intro hnd
         rw [← h1]
         first
           | exact nodupKeys_alistInsert _ _ _ (nodupKeys_alistInsert _ _ _ hnd)
           | exact nodupKeys_alistInsert _ _ _ hnd
           | exact hnd)

/-- C9: update_task_model keeps the state column and the stored snapshot
consistent: the written state column is the TaskStateNames name of the
numeric state in the written snapshot, and for the Start task spec the
written snapshot always has a null parent pointer. -/
theorem C9_update_task_model_state_consistency (ctx : Ctx) (s : PassState)
    (tm : TaskModel) (st : SpiffTaskNode) (s2 : PassState) (tm2 : TaskModel)
    (h : TaskService.update_task_model ctx s tm st = .ok (s2, tm2)) :
    ∃ props, tm2.properties_json = some props ∧
      TaskStateNames props.state = tm2.state ∧
      (st.task_spec = "Start" → props.parent = none) := by
  obtain ⟨hstate, _, hprops, _⟩ := update_task_model_spec ctx s tm st s2 tm2 h
  refine ⟨snapshotOf st, hprops, ?_, ?_⟩
  · rw [snapshotOf_state, hstate]
  · intro hq
    simp [snapshotOf, hq]

end SpiffArena

namespace SpiffArena

/-- Witness for C9 at a concrete completed task. -/
theorem C9_witness :
    TaskService.update_task_model c9ctx c9s c9tm c9st = Except.ok (c9s2, c9tm2) ∧
    (∃ props, c9tm2.properties_json = some props ∧
      TaskStateNames props.state = c9tm2.state ∧
      (c9st.task_spec = "Start" → props.parent = none)) :=
  ⟨rfl, C9_update_task_model_state_consistency c9ctx c9s c9tm c9st c9s2 c9tm2 rfl⟩

/-- C2: reset_task_model with default (None) hash arguments resets the json
hash column to the empty-payload hash, clears times, and sets the state,
but leaves python_env_data_hash unchanged: the source passes the misspelled
column name "python_env_data" to the hash-compare update, which therefore
creates a stray instance attribute of that name instead of resetting the
hash column.  The claim (and the spec scenario) say both payload hash
columns are reset; the code contradicts that intent. -/
theorem C2_reset_python_env_hash_unchanged :
    TaskService.reset_task_model c2tm "READY" none none = Except.ok c2tm2 ∧
    c2tm2.json_data_hash = some (json_hash (.jobj [])) ∧
    c2tm2.python_env_data_hash
      = some "1111111111111111111111111111111111111111111111111111111111111111" ∧
    c2tm2.python_env_data_hash ≠ some (json_hash (.jobj [])) ∧
    c2tm2.extra_attrs = [("python_env_data", json_hash (.jobj []))] ∧
    c2tm2.state = some "READY" ∧
    c2tm2.start_in_seconds = none ∧
    c2tm2.end_in_seconds = none ∧
    c2tm2.properties_json.map TaskProps.state = some 16 := by
  refine ⟨rfl, rfl, rfl, ?_, rfl, rfl, rfl, rfl, rfl⟩
  decide

end SpiffArena

namespace SpiffArena

theorem DescendsInto_lift (ctx : Ctx) (children : List BpmnProcessModel) (ids : List Nat)
    (hch : ∀ r ∈ children, r ∈ ctx.dbProcesses ∧ DescendsInto ctx ids r) :
    ∀ q, DescendsInto ctx (children.map (fun p => p.id)) q → DescendsInto ctx ids q := by
  intro q h
  induction h with
  | direct q i hpar hin =>
    obtain ⟨r, hr, hid⟩ := List.mem_map.mp hin
    exact DescendsInto.step q r (hch r hr).1 (hid ▸ hpar) (hch r hr).2
  | step q r hdb hpar _ ih =>
    exact DescendsInto.step q r hdb hpar ih

/-- C10: bpmn_process_and_descendants returns the input list as a prefix, in
order, followed only by rows of the process table that transitively descend
into the input id set; when no row points at an input id it returns the
input unchanged. -/
theorem C10_descendants (fuel : Nat) (ctx : Ctx) (ps : List BpmnProcessModel) :
    (∃ rest, TaskService.bpmn_process_and_descendants fuel ctx ps = ps ++ rest ∧
       ∀ q ∈ rest, q ∈ ctx.dbProcesses ∧
         DescendsInto ctx (ps.map (fun p => p.id)) q) ∧
    ((∀ q ∈ ctx.dbProcesses, ∀ i, q.direct_parent_process_id = some i →
        i ∉ ps.map (fun p => p.id)) →
      TaskService.bpmn_process_and_descendants fuel ctx ps = ps) := by
  constructor
  · induction fuel generalizing ps with
    | zero =>
      exact ⟨[], by simp [TaskService.bpmn_process_and_descendants], by simp⟩
    | succ fuel ih =>
      unfold TaskService.bpmn_process_and_descendants
      set dc := ctx.dbProcesses.filter
        (fun p => match p.direct_parent_process_id with
                  | some i => (ps.map (fun p => p.id)).contains i
                  | none => false) with hdc
      have hfil : ∀ r ∈ dc, r ∈ ctx.dbProcesses ∧
          DescendsInto ctx (ps.map (fun p => p.id)) r := by
        intro r hr
        rw [hdc] at hr
        refine ⟨List.mem_of_mem_filter hr, ?_⟩
        have hp := List.of_mem_filter hr
        revert hp
        cases hpar : r.direct_parent_process_id with
        | none => intro hp; simp at hp
        | some i =>
          intro hp
          simp only [] at hp
          exact DescendsInto.direct r i hpar (by simpa using hp)
      by_cases hc : 0 < dc.length
      · simp only [hc, if_pos]
        obtain ⟨rest2, heq, hall⟩ := ih dc
        refine ⟨dc ++ rest2, ?_, ?_⟩
        · rw [heq]
        · intro q hq
          rcases List.mem_append.mp hq with hq | hq
          · exact hfil q hq
          · obtain ⟨hdb, hdes⟩ := hall q hq
            exact ⟨hdb, DescendsInto_lift ctx dc _ hfil q hdes⟩
      · simp only [hc, if_neg]
        exact ⟨[], by simp, by simp⟩
  · intro hnone
    cases fuel with
    | zero => rfl
    | succ fuel =>
      unfold TaskService.bpmn_process_and_descendants
      have hfil : (ctx.dbProcesses.filter
          (fun p => match p.direct_parent_process_id with
                    | some i => (ps.map (fun p => p.id)).contains i
                    | none => false)) = [] := by
        rw [List.filter_eq_nil_iff]
        intro q hq
        cases hpar : q.direct_parent_process_id with
        | none => simp
        | some i =>
          simp only []
          have := hnone q hq i hpar
          simpa using this
      simp only [hfil]
      simp

end SpiffArena

namespace SpiffArena

/-- Witness for C10: with one childless row, the function returns the input
unchanged. -/
theorem C10_witness :
    TaskService.bpmn_process_and_descendants 1 c10ctx [c10p] = [c10p] :=
  (C10_descendants 1 c10ctx [c10p]).2 (by
    intro q hq i hpar
    simp only [c10ctx, List.mem_singleton] at hq
    subst hq
    simp [c10p] at hpar)

/-- C7: the parent-chain query returns exactly the innermost-first ancestor
walk reversed, hence both returned lists are ordered outermost-first with
parents preceding children; and with the stop flag every returned boundary
task other than the outermost one is not a CallActivity, so when the walk
stopped at a call activity that task and its owning process are the
outermost elements. -/
theorem C7_ancestor_chain (fuel : Nat) (ctx : Ctx) (tm : TaskModel) (stop : Bool) :
    TaskService.task_models_of_parent_bpmn_processes fuel ctx tm stop =
      (TaskService.ancestor_chain_innermost_first fuel ctx tm stop).map
        (fun p => (p.1.reverse, p.2.reverse)) ∧
    (stop = true → ∀ bs ts,
      TaskService.task_models_of_parent_bpmn_processes fuel ctx tm stop = .ok (bs, ts) →
      ∀ x ∈ ts.tail,
        alistGet x.task_definition_id ctx.taskDefTypenames ≠ some "CallActivity") := by
  constructor
  · induction fuel generalizing tm with
    | zero => rfl
    | succ fuel ih =>
      unfold TaskService.task_models_of_parent_bpmn_processes
        TaskService.ancestor_chain_innermost_first
      cases hbp : tm.bpmn_process_id.bind (dbProcessById ctx) with
      | none => rfl
      | some bp =>
        simp only []
        cases hg : bp.guid with
        | none => simp [Except.map]
        | some g =>
          simp only []
          cases hpt : dbTaskByGuid ctx g with
          | none => simp [Except.map]
          | some ptm =>
            simp only []
            cases stop with
            | false =>
              simp only [Bool.false_eq_true, if_false, reduceIte]
              rw [ih ptm]
              cases hrec : TaskService.ancestor_chain_innermost_first fuel ctx ptm false with
              | error e => simp [Except.map]
              | ok p => simp [Except.map]
            | true =>
              simp only [if_true, reduceIte]
              cases hty : alistGet ptm.task_definition_id ctx.taskDefTypenames with
              | none => simp [Except.map]
              | some typename =>
                simp only []
                by_cases hca : typename = "CallActivity"
                · simp [hca, Except.map]
                · simp only [hca, ne_eq, not_false_eq_true, if_true, reduceIte]
                  rw [ih ptm]
                  cases hrec : TaskService.ancestor_chain_innermost_first fuel ctx ptm true with
                  | error e => simp [Except.map]
                  | ok p => simp [Except.map]
  · intro hstop
    subst hstop
    induction fuel generalizing tm with
    | zero =>
      intro bs ts hrun
      exact absurd hrun (by simp [TaskService.task_models_of_parent_bpmn_processes])
    | succ fuel ih =>
      intro bs ts hrun x hx
      unfold TaskService.task_models_of_parent_bpmn_processes at hrun
      cases hbp : tm.bpmn_process_id.bind (dbProcessById ctx) with
      | none =>
        rw [hbp] at hrun
        exact absurd hrun (by simp)
      | some bp =>
        rw [hbp] at hrun
        simp only [] at hrun
        cases hg : bp.guid with
        | none =>
          rw [hg] at hrun
          simp only [] at hrun
          injection hrun with hpair
          have hts : ts = [] := by
            have h2 := congrArg Prod.snd hpair
            simpa using h2.symm
          rw [hts] at hx
          simp at hx
        | some g =>
          rw [hg] at hrun
          simp only [] at hrun
          cases hpt : dbTaskByGuid ctx g with
          | none =>
            rw [hpt] at hrun
            exact absurd hrun (by simp)
          | some ptm =>
            rw [hpt] at hrun
            simp only [if_true, reduceIte] at hrun
            cases hty : alistGet ptm.task_definition_id ctx.taskDefTypenames with
            | none =>
              rw [hty] at hrun
              exact absurd hrun (by simp)
            | some typename =>
              rw [hty] at hrun
              simp only [] at hrun
              by_cases hca : typename = "CallActivity"
              · simp only [hca, ne_eq, not_true_eq_false, if_false, reduceIte] at hrun
                injection hrun with hpair
                have hts : ts = [ptm] := by
                  have h2 := congrArg Prod.snd hpair
                  simpa using h2.symm
                rw [hts] at hx
                simp at hx
              · simp only [hca, ne_eq, not_false_eq_true, if_true, reduceIte] at hrun
                cases hrec : TaskService.task_models_of_parent_bpmn_processes
                    fuel ctx ptm true with
                | error e =>
                  rw [hrec] at hrun
                  exact absurd hrun (by simp)
                | ok p =>
                  rw [hrec] at hrun
                  simp only [] at hrun
                  injection hrun with hpair
                  have hts : ts = p.2 ++ [ptm] := by
                    have h2 := congrArg Prod.snd hpair
                    simpa using h2.symm
                  have hne : alistGet ptm.task_definition_id ctx.taskDefTypenames
                      ≠ some "CallActivity" := by
                    rw [hty]
                    intro hcon
                    exact hca (Option.some.inj hcon)
                  rw [hts] at hx
                  cases hp2 : p.2 with
                  | nil =>
                    rw [hp2] at hx
                    simp at hx
                  | cons a t =>
                    rw [hp2] at hx
                    simp only [List.cons_append, List.tail_cons] at hx
                    rcases List.mem_append.mp hx with hx2 | hx2
                    · exact ih ptm p.1 p.2 (by rw [hrec]) x (by
                        rw [hp2]
                        simpa using hx2)
                    · simp only [List.mem_singleton] at hx2
                      rw [hx2]
                      exact hne

end SpiffArena

namespace SpiffArena

/-- Witness for C7: a three-level nesting with a call activity boundary one
level up; the walk returns outermost-first and the non-outermost boundary
task is not a call activity. -/
theorem C7_witness :
    TaskService.task_models_of_parent_bpmn_processes 3 c7ctx c7tm true
      = Except.ok (c7bs, c7ts) ∧
    c7bs = [c7sub1, c7sub2] ∧ c7ts = [c7b1, c7b2] ∧
    alistGet c7b2.task_definition_id c7ctx.taskDefTypenames ≠ some "CallActivity" :=
  ⟨rfl, rfl, rfl,
   (C7_ancestor_chain 3 c7ctx c7tm true).2 rfl c7bs c7ts rfl c7b2 (by decide)⟩

theorem remove_spiff_task_from_parent_error (st : SpiffTaskNode)
    (tms : List (String × TaskModel)) (e : RunErr)
    (h : TaskService.remove_spiff_task_from_parent st tms = .error e) :
    e = .modelCrash := by
  unfold TaskService.remove_spiff_task_from_parent at h
  revert h
  cases st.parent with
  | none => intro h; injection h with h2; exact h2.symm
  | some pg =>
    simp only []
    cases alistGet pg tms with
    | none => intro h; exact absurd h (by simp)
    | some ptm =>
      simp only []
      cases ptm.properties_json with
      | none => intro h; injection h with h2; exact h2.symm
      | some props =>
        simp only []
        by_cases hm : st.id ∈ props.children <;> intro h <;>
          (simp only [hm, if_true, if_false, reduceIte] at h; exact absurd h (by simp))

theorem _create_task_error (ctx : Ctx) (bp : BpmnProcessModel)
    (pi : ProcessInstanceModel) (st : SpiffTaskNode) (e : RunErr)
    (h : TaskService._create_task ctx bp pi st = .error e) : e = .modelCrash := by
  unfold TaskService._create_task at h
  revert h
  cases alistGet st.wf ctx.workflows with
  | none => intro h; injection h with h2; exact h2.symm
  | some wfi =>
    simp only []
    cases alistGet (wfi.spec_name, st.task_spec) ctx.taskDefs with
    | none => intro h; injection h with h2; exact h2.symm
    | some defId => intro h; exact absurd h (by simp)

theorem update_task_model_error (ctx : Ctx) (s : PassState) (tm : TaskModel)
    (st : SpiffTaskNode) (e : RunErr)
    (h : TaskService.update_task_model ctx s tm st = .error e) : e = .modelCrash := by
  unfold TaskService.update_task_model at h
  revert h
  simp only [task_to_dict]
  cases TaskStateNames (if st.task_spec = "Start"
      then ({ task_spec := st.task_spec, parent := none, children := st.children,
              state := st.state } : TaskProps)
      else ({ task_spec := st.task_spec, parent := st.parent, children := st.children,
              state := st.state } : TaskProps)).state with
  | none => intro h; injection h with h2; exact h2.symm
  | some nm => intro h; exact absurd h (by simp)

theorem add_tasks_to_bpmn_process_not_bpmn_error (ctx : Ctx)
    (tasks : List (String × TaskProps)) (wf : Nat) (bp : BpmnProcessModel) :
    ∀ (s : PassState) (msg : String),
    TaskService.add_tasks_to_bpmn_process ctx s tasks wf bp
      ≠ .error (.bpmnProcessNotFound msg) := by
  induction tasks with
  | nil =>
    intro s msg h
    exact absurd h (by simp [TaskService.add_tasks_to_bpmn_process])
  | cons hd rest ih =>
    intro s msg h
    unfold TaskService.add_tasks_to_bpmn_process at h
    revert h
    by_cases hroot : hd.2.task_spec = "Root"
    · simp only [hroot, if_true, reduceIte]
      exact ih s msg
    · simp only [hroot, if_false, reduceIte]
      cases hlk : alistGet hd.1 ctx.tasks with
      | none => intro h; injection h with h2; exact absurd h2.symm (by simp)
      | some spiff_task =>
        simp only []
        by_cases hpred : has_state spiff_task PREDICTED_MASK = true
        · simp only [hpred, if_true, reduceIte]
          cases hrm : TaskService.remove_spiff_task_from_parent spiff_task s.task_models with
          | error e =>
            intro h
            injection h with h2
            have := remove_spiff_task_from_parent_error spiff_task s.task_models e hrm
            rw [this] at h2
            exact absurd h2.symm (by simp)
          | ok tms =>
            simp only []
            exact ih _ msg
        · simp only [hpred, if_false, Bool.not_eq_true, reduceIte]
          cases hdb : dbTaskByGuid ctx hd.1 with
          | some row =>
            simp only []
            cases hup : TaskService.update_task_model ctx s row spiff_task with
            | error e =>
              intro h
              injection h with h2
              have := update_task_model_error ctx s row spiff_task e hup
              rw [this] at h2
              exact absurd h2.symm (by simp)
            | ok p =>
              simp only []
              exact ih _ msg
          | none =>
            simp only []
            cases hcr : TaskService._create_task ctx bp s.process_instance spiff_task with
            | error e =>
              intro h
              injection h with h2
              have := _create_task_error ctx bp s.process_instance spiff_task e hcr
              rw [this] at h2
              exact absurd h2.symm (by simp)
            | ok tm0 =>
              simp only []
              cases hup : TaskService.update_task_model ctx s tm0 spiff_task with
              | error e =>
                intro h
                injection h with h2
                have := update_task_model_error ctx s tm0 spiff_task e hup
                rw [this] at h2
                exact absurd h2.symm (by simp)
              | ok p =>
                simp only []
                exact ih _ msg

end SpiffArena

namespace SpiffArena

theorem subprocess_fold_absorbs_error (ctx : Ctx) (outer : Nat) (e : RunErr)
    (l : List (String × Nat)) :
    List.foldl (TaskService.subprocess_parent_step ctx outer) (.error e) l = .error e := by
  induction l with
  | nil => rfl
  | cons p t ih => simpa [TaskService.subprocess_parent_step] using ih

theorem subprocess_fold_no_match (ctx : Ctx) (outer : Nat) (l : List (String × Nat))
    (h : ∀ p ∈ l, p.2 ≠ outer) (acc : BpmnProcessModel) :
    List.foldl (TaskService.subprocess_parent_step ctx outer) (.ok acc) l = .ok acc := by
  induction l generalizing acc with
  | nil => rfl
  | cons p t ih =>
    have hp : p.2 ≠ outer := h p (List.mem_cons_self p t)
    simp only [List.foldl_cons, TaskService.subprocess_parent_step, hp, if_false, reduceIte]
    exact ih (fun q hq => h q (List.mem_cons_of_mem p hq)) acc

theorem subprocess_fold_missing (ctx : Ctx) (outer : Nat) (l : List (String × Nat))
    (h : ∃ p ∈ l, p.2 = outer ∧ dbProcessByGuid ctx p.1 = none) (acc : BpmnProcessModel) :
    ∃ msg, List.foldl (TaskService.subprocess_parent_step ctx outer) (.ok acc) l
      = .error (.bpmnProcessNotFound msg) := by
  induction l generalizing acc with
  | nil => simp at h
  | cons p t ih =>
    obtain ⟨q, hq, hmatch, hmiss⟩ := h
    rcases List.mem_cons.mp hq with hq | hq
    · subst hq
      simp only [List.foldl_cons, TaskService.subprocess_parent_step, hmatch, if_true, reduceIte, hmiss]
      exact ⟨_, subprocess_fold_absorbs_error ctx outer _ t⟩
    · simp only [List.foldl_cons, TaskService.subprocess_parent_step]
      by_cases hp : p.2 = outer
      · simp only [hp, if_true, reduceIte]
        cases hdb : dbProcessByGuid ctx p.1 with
        | none => exact ⟨_, subprocess_fold_absorbs_error ctx outer _ t⟩
        | some m => exact ih ⟨q, hq, hmatch, hmiss⟩ m
      · simp only [hp, if_false, reduceIte]
        exact ih ⟨q, hq, hmatch, hmiss⟩ acc

theorem subprocess_fold_all_found (ctx : Ctx) (outer : Nat) (l : List (String × Nat))
    (h : ∀ p ∈ l, p.2 = outer → dbProcessByGuid ctx p.1 ≠ none) (acc : BpmnProcessModel) :
    ∃ par, List.foldl (TaskService.subprocess_parent_step ctx outer) (.ok acc) l = .ok par := by
  induction l generalizing acc with
  | nil => exact ⟨acc, rfl⟩
  | cons p t ih =>
    simp only [List.foldl_cons, TaskService.subprocess_parent_step]
    by_cases hp : p.2 = outer
    · simp only [hp, if_true, reduceIte]
      cases hdb : dbProcessByGuid ctx p.1 with
      | none => exact absurd hdb (h p (List.mem_cons_self p t) hp)
      | some m =>
        simp only []
        exact ih (fun q hq => h q (List.mem_cons_of_mem p hq)) m
    · simp only [hp, if_false, reduceIte]
      exact ih (fun q hq => h q (List.mem_cons_of_mem p hq)) acc

theorem update_bp_data_fst_parent (bp : BpmnProcessModel) (d : JVal) :
    (TaskService.update_task_data_on_bpmn_process bp d).1.direct_parent_process_id
      = bp.direct_parent_process_id := by
  unfold TaskService.update_task_data_on_bpmn_process
  by_cases h : bp.json_data_hash = some (sha256_hexdigest (dumps_sort_keys d)) <;> simp [h]

/-- Behavior of add_bpmn_process for a new nested row, as a function of the
direct-parent scan: a scan error propagates; a scanned parent is installed
as the direct parent of the returned row, and no BpmnProcessNotFoundError
arises after the scan. -/
theorem add_bpmn_process_scan_behavior (ctx : Ctx) (s : PassState) (wd : WorkflowDict)
    (wf : Nat) (tlp : BpmnProcessModel) (guid : Option String)
    (wfi : SpiffWorkflowInfo) (defId : Nat)
    (hdb : dbProcessByTopAndGuid ctx tlp.id guid = none)
    (hwf : alistGet wf ctx.workflows = some wfi)
    (hdef : alistGet wfi.spec_name ctx.bpmnDefs = some defId) :
    (∀ e, ctx.subprocesses.foldl (TaskService.subprocess_parent_step ctx wfi.outer) (.ok tlp)
        = .error e →
      TaskService.add_bpmn_process ctx s wd wf (some tlp) guid = .error e) ∧
    (∀ par, ctx.subprocesses.foldl (TaskService.subprocess_parent_step ctx wfi.outer) (.ok tlp)
        = .ok par →
      (∀ msg, TaskService.add_bpmn_process ctx s wd wf (some tlp) guid
        ≠ .error (.bpmnProcessNotFound msg)) ∧
      (∀ s2 bp, TaskService.add_bpmn_process ctx s wd wf (some tlp) guid = .ok (s2, bp) →
        bp.direct_parent_process_id = some par.id)) := by
  constructor
  · intro e hfold
    unfold TaskService.add_bpmn_process
    simp only [hdb, hwf, hdef, hfold]
  · intro par hfold
    constructor
    · intro msg h
      unfold TaskService.add_bpmn_process at h
      simp only [hdb, hwf, hdef, hfold, reduceIte] at h
      split at h
      · rename_i e heq
        injection h with h2
        rw [h2] at heq
        exact add_tasks_to_bpmn_process_not_bpmn_error ctx wd.tasks wf _ _ msg heq
      · exact absurd h (by simp)
    · intro s2 bp h
      unfold TaskService.add_bpmn_process at h
      simp only [hdb, hwf, hdef, hfold, reduceIte] at h
      split at h
      · exact absurd h (by simp)
      · rename_i s4 heq
        injection h with h2
        have hbp := congrArg Prod.snd h2
        simp only [] at hbp
        rw [← hbp]
        by_cases hc : (TaskService.update_task_data_on_bpmn_process
            { id := s.next_id, guid := guid, direct_parent_process_id := some par.id,
              top_level_process_id := none, json_data_hash := none,
              properties_json := some { root := List.foldl (fun acc p => if p.2.task_spec = "Start" then some p.1 else acc) wd.root wd.tasks, last_task := wd.last_task, success := wd.success },
              bpmn_process_definition_id := some defId } wd.data).1.top_level_process_id
            = none <;>
          simp [hc, update_bp_data_fst_parent]

end SpiffArena

namespace SpiffArena

/-- C4 counterexample: with a given top level process and no subprocess
context matching the new workflow's outer workflow, add_bpmn_process does
not raise; it completes and the direct parent defaults to the given top
level process (the parent variable is initialized to it and the dead null
check never fires). -/
theorem C4_counterexample :
    TaskService.add_bpmn_process c4ctx c4s c4wd 9 (some c4tlp) (some "newg")
      = Except.ok (c4s2, c4bp) ∧
    alistGet 9 c4ctx.workflows = some c4wfi ∧
    (∀ p ∈ c4ctx.subprocesses, p.2 ≠ c4wfi.outer) ∧
    c4bp.direct_parent_process_id = some c4tlp.id := by
  refine ⟨rfl, rfl, by decide, rfl⟩

/-- C4 amended: creating a new nested process row raises
BpmnProcessNotFoundError exactly when some subprocess context of the
outermost workflow equals the new workflow's outer workflow but has no
persisted row: when no context matches, the call does not raise that error
and any returned row has the given top level process as direct parent, and
when every matching context has a persisted row - the normal creation path
included - the error is not raised either, so a raise implies a matching
context without a row. -/
theorem C4_nested_parent_resolution (ctx : Ctx) (s : PassState) (wd : WorkflowDict)
    (wf : Nat) (tlp : BpmnProcessModel) (guid : Option String)
    (wfi : SpiffWorkflowInfo) (defId : Nat)
    (hdb : dbProcessByTopAndGuid ctx tlp.id guid = none)
    (hwf : alistGet wf ctx.workflows = some wfi)
    (hdef : alistGet wfi.spec_name ctx.bpmnDefs = some defId) :
    ((∀ p ∈ ctx.subprocesses, p.2 ≠ wfi.outer) →
      (∀ msg, TaskService.add_bpmn_process ctx s wd wf (some tlp) guid
          ≠ .error (.bpmnProcessNotFound msg)) ∧
      (∀ s2 bp, TaskService.add_bpmn_process ctx s wd wf (some tlp) guid = .ok (s2, bp) →
          bp.direct_parent_process_id = some tlp.id)) ∧
    ((∃ p ∈ ctx.subprocesses, p.2 = wfi.outer ∧ dbProcessByGuid ctx p.1 = none) →
      ∃ msg, TaskService.add_bpmn_process ctx s wd wf (some tlp) guid
        = .error (.bpmnProcessNotFound msg)) ∧
    ((∀ p ∈ ctx.subprocesses, p.2 = wfi.outer → dbProcessByGuid ctx p.1 ≠ none) →
      ∀ msg, TaskService.add_bpmn_process ctx s wd wf (some tlp) guid
        ≠ .error (.bpmnProcessNotFound msg)) := by
  refine ⟨?_, ?_, ?_⟩
  · intro hno
    have hfold := subprocess_fold_no_match ctx wfi.outer ctx.subprocesses hno tlp
    exact (add_bpmn_process_scan_behavior ctx s wd wf tlp guid wfi defId
      hdb hwf hdef).2 tlp hfold
  · intro hex
    obtain ⟨msg, hfold⟩ := subprocess_fold_missing ctx wfi.outer ctx.subprocesses hex tlp
    exact ⟨msg, (add_bpmn_process_scan_behavior ctx s wd wf tlp guid wfi defId
      hdb hwf hdef).1 _ hfold⟩
  · intro hall
    obtain ⟨par, hfold⟩ := subprocess_fold_all_found ctx wfi.outer ctx.subprocesses hall tlp
    exact ((add_bpmn_process_scan_behavior ctx s wd wf tlp guid wfi defId
      hdb hwf hdef).2 par hfold).1

/-- Witness for the amended C4 at concrete inputs: the no-match run does
not raise and resolves the parent to the top level row; the match-without-
row run raises BpmnProcessNotFoundError; the match-with-row run - the
normal creation path - does not raise. -/
theorem C4_witness :
    TaskService.add_bpmn_process c4ctx c4s c4wd 9 (some c4tlp) (some "newg")
      ≠ Except.error (RunErr.bpmnProcessNotFound "missing parent") ∧
    c4bp.direct_parent_process_id = some c4tlp.id ∧
    TaskService.add_bpmn_process c4bctx c4s c4wd 9 (some c4tlp) (some "newg")
      = Except.error (RunErr.bpmnProcessNotFound
          "Could not find bpmn process with guid: sg") ∧
    TaskService.add_bpmn_process c4cctx c4s c4wd 9 (some c4tlp) (some "newg")
      ≠ Except.error (RunErr.bpmnProcessNotFound "missing parent") :=
  ⟨((C4_nested_parent_resolution c4ctx c4s c4wd 9 c4tlp (some "newg") c4wfi 50
      rfl rfl rfl).1 (by decide)).1 "missing parent",
   ((C4_nested_parent_resolution c4ctx c4s c4wd 9 c4tlp (some "newg") c4wfi 50
      rfl rfl rfl).1 (by decide)).2 c4s2 c4bp rfl,
   rfl,
   (C4_nested_parent_resolution c4cctx c4s c4wd 9 c4tlp (some "newg") c4wfi 50
      rfl rfl rfl).2.2 (by decide) "missing parent"⟩

end SpiffArena

namespace SpiffArena

theorem remove_spiff_task_from_parent_ok_nodup (st : SpiffTaskNode)
    (tms tms2 : List (String × TaskModel))
    (h : TaskService.remove_spiff_task_from_parent st tms = .ok tms2) :
    (tms.map Prod.fst).Nodup → (tms2.map Prod.fst).Nodup := by
  intro hnd
  unfold TaskService.remove_spiff_task_from_parent at h
  revert h
  cases st.parent with
  | none => intro h; exact absurd h (by simp)
  | some pg =>
    simp only []
    cases alistGet pg tms with
    | none => intro h; injection h with h2; rw [← h2]; exact hnd
    | some ptm =>
      simp only []
      cases ptm.properties_json with
      | none => intro h; exact absurd h (by simp)
      | some props =>
        simp only []
        by_cases hm : st.id ∈ props.children
        · simp only [hm, if_true, reduceIte]
          intro h
          injection h with h2
          rw [← h2]
          exact nodupKeys_alistInsert _ _ _ hnd
        · simp only [hm, if_false, reduceIte]
          intro h
          injection h with h2
          rw [← h2]
          exact hnd

theorem add_tasks_to_bpmn_process_spec (ctx : Ctx) (tasks : List (String × TaskProps))
    (wf : Nat) (bp : BpmnProcessModel) :
    ∀ (s s2 : PassState),
    TaskService.add_tasks_to_bpmn_process ctx s tasks wf bp = .ok s2 →
    s2.process_instance_events = s.process_instance_events ∧
    s2.bpmn_processes = s.bpmn_processes ∧
    s2.process_instance = s.process_instance ∧
    s2.session_processes = s.session_processes ∧
    s2.next_id = s.next_id ∧
    ((s.task_models.map Prod.fst).Nodup → (s2.task_models.map Prod.fst).Nodup) ∧
    ((s.json_data_dicts.map Prod.fst).Nodup → (s2.json_data_dicts.map Prod.fst).Nodup) := by
  induction tasks with
  | nil =>
    intro s s2 h
    unfold TaskService.add_tasks_to_bpmn_process at h
    injection h with h2
    rw [← h2]
    exact ⟨rfl, rfl, rfl, rfl, rfl, id, id⟩
  | cons hd rest ih =>
    intro s s2 h
    unfold TaskService.add_tasks_to_bpmn_process at h
    revert h
    by_cases hroot : hd.2.task_spec = "Root"
    · simp only [hroot, if_true, reduceIte]
      exact ih s s2
    · simp only [hroot, if_false, reduceIte]
      cases hlk : alistGet hd.1 ctx.tasks with
      | none => intro h; exact absurd h (by simp)
      | some spiff_task =>
        simp only []
        by_cases hpred : has_state spiff_task PREDICTED_MASK = true
        · simp only [hpred, if_true, reduceIte]
          cases hrm : TaskService.remove_spiff_task_from_parent spiff_task s.task_models with
          | error e => intro h; exact absurd h (by simp)
          | ok tms =>
            simp only []
            intro h
            obtain ⟨e1, e2, e3, e4, e5, e6, e7⟩ := ih _ s2 h
            exact ⟨e1, e2, e3, e4, e5,
              fun hnd => e6 (remove_spiff_task_from_parent_ok_nodup spiff_task
                s.task_models tms hrm hnd), e7⟩
        · simp only [hpred, if_false, Bool.not_eq_true, reduceIte]
          cases hdb : dbTaskByGuid ctx hd.1 with
          | some row =>
            simp only []
            cases hup : TaskService.update_task_model ctx s row spiff_task with
            | error e => intro h; exact absurd h (by simp)
            | ok p =>
              simp only []
              intro h
              obtain ⟨f1, f2, f3, ftm, fev, fbp, fpi, fss, fni, fjs⟩ :=
                update_task_model_spec ctx s row spiff_task p.1 p.2 (by rw [hup])
              obtain ⟨e1, e2, e3, e4, e5, e6, e7⟩ := ih _ s2 h
              refine ⟨by rw [e1, fev], by rw [e2, fbp], by rw [e3, fpi],
                by rw [e4, fss], by rw [e5, fni], ?_, fun hnd => e7 (fjs hnd)⟩
              intro hnd
              apply e6
              simp only [ftm]
              exact nodupKeys_alistInsert _ _ _ hnd
          | none =>
            simp only []
            cases hcr : TaskService._create_task ctx bp s.process_instance spiff_task with
            | error e => intro h; exact absurd h (by simp)
            | ok tm0 =>
              simp only []
              cases hup : TaskService.update_task_model ctx s tm0 spiff_task with
              | error e => intro h; exact absurd h (by simp)
              | ok p =>
                simp only []
                intro h
                obtain ⟨f1, f2, f3, ftm, fev, fbp, fpi, fss, fni, fjs⟩ :=
                  update_task_model_spec ctx s tm0 spiff_task p.1 p.2 (by rw [hup])
                obtain ⟨e1, e2, e3, e4, e5, e6, e7⟩ := ih _ s2 h
                refine ⟨by rw [e1, fev], by rw [e2, fbp], by rw [e3, fpi],
                  by rw [e4, fss], by rw [e5, fni], ?_, fun hnd => e7 (fjs hnd)⟩
                intro hnd
                apply e6
                simp only [ftm]
                exact nodupKeys_alistInsert _ _ _ hnd

end SpiffArena

namespace SpiffArena

theorem add_bpmn_process_spec (ctx : Ctx) (s : PassState) (wd : WorkflowDict)
    (wf : Nat) (tlp : Option BpmnProcessModel) (guid : Option String)
    (s2 : PassState) (bp : BpmnProcessModel)
    (h : TaskService.add_bpmn_process ctx s wd wf tlp guid = .ok (s2, bp)) :
    s2.process_instance_events = s.process_instance_events ∧
    s2.bpmn_processes = s.bpmn_processes ∧
    ((s.task_models.map Prod.fst).Nodup → (s2.task_models.map Prod.fst).Nodup) ∧
    ((s.json_data_dicts.map Prod.fst).Nodup → (s2.json_data_dicts.map Prod.fst).Nodup) := by
  unfold TaskService.add_bpmn_process at h
  simp only [] at h
  split at h
  · exact absurd h (by simp)
  · rename_i b bp1 s1 hcre
    have hfacts : s1.process_instance_events = s.process_instance_events ∧
        s1.bpmn_processes = s.bpmn_processes ∧
        s1.task_models = s.task_models ∧
        s1.json_data_dicts = s.json_data_dicts := by
      iterate 10 (all_goals (try split at hcre))
      all_goals
        first
          | exact Except.noConfusion hcre
          | (injection hcre with h2
             have hs := congrArg (fun t => t.2.2) h2
             simp only [] at hs
             rw [← hs]
             exact ⟨rfl, rfl, rfl, rfl⟩)
    obtain ⟨he, hb, ht, hj⟩ := hfacts
    iterate 6 (all_goals (try split at h))
    all_goals (try (exact Except.noConfusion h))
    all_goals
      (injection h with h2
       have hsA := congrArg Prod.fst h2
       simp only [] at hsA
       rw [← hsA])
    all_goals
      (try (refine ⟨?_, ?_, ?_, ?_⟩
            · try simp only []
              exact he
            · try simp only []
              exact hb
            · intro hnd
              try simp only []
              rw [ht]
              exact hnd
            · intro hnd
              try simp only []
              rw [hj]
              first
                | exact nodupKeys_alistInsert _ _ _ hnd
                | exact hnd))
    all_goals
      (rename TaskService.add_tasks_to_bpmn_process _ _ _ _ _ = _ => hadd
       rename (TaskService.update_task_data_on_bpmn_process _ _).2 = _ => hr2
       obtain ⟨e1, e2, e3, e4, e5, e6, e7⟩ :=
         add_tasks_to_bpmn_process_spec ctx wd.tasks wf _ _ _ hadd
       refine ⟨?_, ?_, ?_, ?_⟩
       · rw [e1]
         try simp only []
         try rw [hr2]
         try simp only []
         first
           | exact he
           | (split <;> (try simp only []) <;> exact he)
       · rw [e2]
         try simp only []
         try rw [hr2]
         try simp only []
         first
           | exact hb
           | (split <;> (try simp only []) <;> exact hb)
       · intro hnd
         apply e6
         try simp only []
         try rw [hr2]
         try simp only []
         first
           | (rw [ht]; exact hnd)
           | (split <;> (try simp only []) <;> (rw [ht]; exact hnd))
       · intro hnd
         apply e7
         try simp only []
         try rw [hr2]
         try simp only []
         first
           | (rw [hj]
              first
                | exact nodupKeys_alistInsert _ _ _ hnd
                | exact hnd)
           | (split <;> (try simp only []) <;>
               (rw [hj]
                first
                  | exact nodupKeys_alistInsert _ _ _ hnd
                  | exact hnd)))

end SpiffArena

namespace SpiffArena

theorem task_bpmn_process_spec (ctx : Ctx) (s : PassState) (st : SpiffTaskNode)
    (s2 : PassState) (bp : BpmnProcessModel)
    (h : TaskService.task_bpmn_process ctx s st = .ok (s2, bp)) :
    s2.process_instance_events = s.process_instance_events ∧
    s2.bpmn_processes = s.bpmn_processes ∧
    ((s.task_models.map Prod.fst).Nodup → (s2.task_models.map Prod.fst).Nodup) ∧
    ((s.json_data_dicts.map Prod.fst).Nodup → (s2.json_data_dicts.map Prod.fst).Nodup) := by
  unfold TaskService.task_bpmn_process at h
  simp only [] at h
  iterate 6 (all_goals (try split at h))
  all_goals (try (exact Except.noConfusion h))
  all_goals
    first
      | (injection h with h2
         have hsA := congrArg Prod.fst h2
         simp only [] at hsA
         rw [← hsA]
         exact ⟨rfl, rfl, id, id⟩)
      | exact add_bpmn_process_spec ctx s _ _ _ _ s2 bp h

theorem find_or_create_task_model_from_spiff_task_spec (ctx : Ctx) (s : PassState)
    (st : SpiffTaskNode) (s1 : PassState) (nbp : Option BpmnProcessModel) (tm : TaskModel)
    (h : TaskService.find_or_create_task_model_from_spiff_task ctx s st = .ok (s1, nbp, tm)) :
    s1.process_instance_events = s.process_instance_events ∧
    s1.bpmn_processes = s.bpmn_processes ∧
    ((s.task_models.map Prod.fst).Nodup → (s1.task_models.map Prod.fst).Nodup) ∧
    ((s.json_data_dicts.map Prod.fst).Nodup → (s1.json_data_dicts.map Prod.fst).Nodup) := by
  unfold TaskService.find_or_create_task_model_from_spiff_task at h
  simp only [] at h
  iterate 6 (all_goals (try split at h))
  all_goals (try (exact Except.noConfusion h))
  all_goals
    first
      | (injection h with h2
         have hsA := congrArg Prod.fst h2
         simp only [] at hsA
         rw [← hsA]
         exact ⟨rfl, rfl, id, id⟩)
      | (rename TaskService.task_bpmn_process _ _ _ = _ => htb
         injection h with h2
         have hsA := congrArg Prod.fst h2
         simp only [] at hsA
         rw [← hsA]
         exact task_bpmn_process_spec ctx s st _ _ htb)

theorem update_bpmn_process_spec (fuel : Nat) (ctx : Ctx) :
    ∀ (s : PassState) (wfn : Nat) (bp : BpmnProcessModel) (s2 : PassState),
    TaskService.update_bpmn_process fuel ctx s wfn bp = .ok s2 →
    s2.process_instance_events = s.process_instance_events ∧
    s2.task_models = s.task_models ∧
    s2.process_instance = s.process_instance ∧
    ((s.bpmn_processes.map Prod.fst).Nodup → (s2.bpmn_processes.map Prod.fst).Nodup) ∧
    ((s.json_data_dicts.map Prod.fst).Nodup → (s2.json_data_dicts.map Prod.fst).Nodup) := by
  induction fuel with
  | zero =>
    intro s wfn bp s2 h
    exact absurd h (by simp [TaskService.update_bpmn_process])
  | succ fuel ih =>
    intro s wfn bp s2 h
    unfold TaskService.update_bpmn_process at h
    simp only [] at h
    iterate 8 (all_goals (try split at h))
    all_goals (try (exact Except.noConfusion h))
    all_goals
      first
        | (injection h with h2
           rw [← h2]
           refine ⟨?_, ?_, ?_, ?_, ?_⟩ <;> (try simp only []) <;>
             first
               | rfl
               | exact id
               | (intro hnd; exact nodupKeys_alistInsert _ _ _ hnd))
        | (obtain ⟨e1, e2, e3, e4, e5⟩ := ih _ _ _ _ h
           refine ⟨?_, ?_, ?_, ?_, ?_⟩
           · rw [e1]
           · rw [e2]
           · rw [e3]
           · intro hnd
             apply e4
             try simp only []
             exact nodupKeys_alistInsert _ _ _ hnd
           · intro hnd
             apply e5
             try simp only []
             first
               | exact nodupKeys_alistInsert _ _ _ hnd
               | exact hnd)

end SpiffArena

namespace SpiffArena

theorem update_with_spiff_spec (fuel : Nat) (ctx : Ctx) (s : PassState)
    (st : SpiffTaskNode) (saet : Option StartAndEndTimes) (s2 : PassState) (tm2 : TaskModel)
    (h : TaskService.update_task_model_with_spiff_task fuel ctx s st saet = .ok (s2, tm2)) :
    (tm2.state = some "COMPLETED" →
      s2.process_instance_events =
        alistInsert tm2.guid
          { task_guid := tm2.guid, event_type := "task_completed",
            timestamp := py_or_rat tm2.end_in_seconds (py_or_rat tm2.start_in_seconds ctx.now) }
          s.process_instance_events) ∧
    (¬ tm2.state = some "COMPLETED" →
      s2.process_instance_events = s.process_instance_events) ∧
    ((s.task_models.map Prod.fst).Nodup → (s2.task_models.map Prod.fst).Nodup) ∧
    ((s.bpmn_processes.map Prod.fst).Nodup → (s2.bpmn_processes.map Prod.fst).Nodup) ∧
    ((s.json_data_dicts.map Prod.fst).Nodup → (s2.json_data_dicts.map Prod.fst).Nodup) := by
  unfold TaskService.update_task_model_with_spiff_task at h
  simp only [] at h
  split at h
  · exact Except.noConfusion h
  · rename_i s1 nbp tmX hin
    have hS1 : s1.process_instance_events = s.process_instance_events ∧
        s1.bpmn_processes = s.bpmn_processes ∧
        ((s.task_models.map Prod.fst).Nodup → (s1.task_models.map Prod.fst).Nodup) ∧
        ((s.json_data_dicts.map Prod.fst).Nodup → (s1.json_data_dicts.map Prod.fst).Nodup) := by
      split at hin
      · injection hin with h2
        have hs := congrArg (fun t => t.1) h2
        simp only [] at hs
        rw [← hs]
        exact ⟨rfl, rfl, id, id⟩
      · exact find_or_create_task_model_from_spiff_task_spec ctx s st _ _ _ hin
    obtain ⟨hS1e, hS1b, hS1t, hS1j⟩ := hS1
    iterate 9 (all_goals (try split at h))
    all_goals (try (exact Except.noConfusion h))
    all_goals
      (rename TaskService.update_bpmn_process _ _ _ _ _ = _ => hub
       rename TaskService.update_task_model _ _ _ _ = _ => hum
       rename BpmnProcessModel => mm
       rename SpiffWorkflowInfo => wfi2
       obtain ⟨m1, m2, m3, m4, m5, m6, m7, m8, m9, m10⟩ :=
         update_task_model_spec ctx s1 tmX st _ _ hum
       cases hr2 : (TaskService.update_task_data_on_bpmn_process mm wfi2.data).2
       all_goals
         (rw [hr2] at hub
          simp only [] at hub
          obtain ⟨u1, u2, u3, u4, u5⟩ := update_bpmn_process_spec _ ctx _ _ _ _ hub
          injection h with h2
          have hsA := congrArg Prod.fst h2
          have htA := congrArg Prod.snd h2
          simp only [] at hsA htA
          rw [← hsA, ← htA]
          refine ⟨?_, ?_, ?_, ?_, ?_⟩
          · intro hx
            rw [u1]
            split_ifs
            all_goals try simp only []
            all_goals (rw [m5, hS1e])
          · intro hx
            rw [u1]
            split_ifs
            all_goals try simp only []
            all_goals try (rw [m5, hS1e])
            all_goals
              (rename _ = some "COMPLETED" => hc
               try simp only [] at hx hc
               exact absurd hc hx)
          · intro hnd
            rw [u2]
            split_ifs with hc <;>
              (try simp only []
               refine nodupKeys_alistInsert _ _ _ ?_
               rw [m4]
               exact hS1t hnd)
          · intro hnd
            apply u4
            split_ifs with hc <;>
              (try simp only []
               rw [m6, hS1b]
               exact hnd)
          · intro hnd
            apply u5
            split_ifs with hc <;>
              (try simp only []
               have hjj := m10 (hS1j hnd)
               first
                 | exact nodupKeys_alistInsert _ _ _ hjj
                 | exact hjj)))


end SpiffArena

namespace SpiffArena

/-- C5 counterexample: a completed task carrying an explicit end time of 0
and an explicit start time of 5 buffers its task_completed event with
timestamp 5, not the explicit end time 0: the source selects the timestamp
with Python `or` truthiness (`end or start or now`), so an end time of 0 is
skipped even though it is present.  This refutes the claim's "end time if
present" selection. -/
theorem C5_counterexample :
    c5res = Except.ok (c5s2v, c5tm2v) ∧
    c5tm2v.state = some "COMPLETED" ∧
    c5tm2v.end_in_seconds = some 0 ∧
    c5tm2v.start_in_seconds = some 5 ∧
    alistGet c5tm2v.guid c5s2v.process_instance_events =
      some { task_guid := "t5", event_type := "task_completed", timestamp := 5 } ∧
    (0 : Rat) ≠ 5 := by
  refine ⟨rfl, rfl, rfl, rfl, rfl, by norm_num⟩

/-- C5 amended: in update_task_model_with_spiff_task a task_completed event
is buffered under the task guid if and only if the updated row's state is
"COMPLETED", and its timestamp is selected by Python truthiness: the end
time when it is non-null and nonzero, else the start time when non-null and
nonzero, else the current wall-clock time; for any other state the event
buffer is untouched. -/
theorem C5_lifecycle_event_iff_completed (fuel : Nat) (ctx : Ctx) (s : PassState)
    (st : SpiffTaskNode) (saet : Option StartAndEndTimes) (s2 : PassState) (tm2 : TaskModel)
    (h : TaskService.update_task_model_with_spiff_task fuel ctx s st saet = .ok (s2, tm2)) :
    (tm2.state = some "COMPLETED" →
      s2.process_instance_events =
        alistInsert tm2.guid
          { task_guid := tm2.guid, event_type := "task_completed",
            timestamp := py_or_rat tm2.end_in_seconds (py_or_rat tm2.start_in_seconds ctx.now) }
          s.process_instance_events) ∧
    (¬ tm2.state = some "COMPLETED" →
      s2.process_instance_events = s.process_instance_events) := by
  obtain ⟨a, b, _, _, _⟩ := update_with_spiff_spec fuel ctx s st saet s2 tm2 h
  exact ⟨a, b⟩

/-- C5 witness: the amended characterization applied to the concrete run of
the counterexample scenario. -/
theorem C5_witness :
    (c5tm2v.state = some "COMPLETED" →
      c5s2v.process_instance_events =
        alistInsert c5tm2v.guid
          { task_guid := c5tm2v.guid, event_type := "task_completed",
            timestamp := py_or_rat c5tm2v.end_in_seconds
                           (py_or_rat c5tm2v.start_in_seconds c5ctx.now) }
          c5s.process_instance_events) ∧
    (¬ c5tm2v.state = some "COMPLETED" →
      c5s2v.process_instance_events = c5s.process_instance_events) :=
  C5_lifecycle_event_iff_completed 1 c5ctx c5s c5st (some c5times) c5s2v c5tm2v rfl

end SpiffArena

namespace SpiffArena

theorem update_with_spiff_nodup (fuel : Nat) (ctx : Ctx) (s : PassState)
    (st : SpiffTaskNode) (saet : Option StartAndEndTimes) (s2 : PassState) (tm2 : TaskModel)
    (h : TaskService.update_task_model_with_spiff_task fuel ctx s st saet = .ok (s2, tm2)) :
    buffersNodupKeys s → buffersNodupKeys s2 := by
  intro hnd
  obtain ⟨ht, hb, hj, he⟩ := hnd
  obtain ⟨a, b, c, d, e⟩ := update_with_spiff_spec fuel ctx s st saet s2 tm2 h
  refine ⟨c ht, d hb, e hj, ?_⟩
  by_cases hc : tm2.state = some "COMPLETED"
  · rw [a hc]
    exact nodupKeys_alistInsert _ _ _ he
  · rw [b hc]
    exact he

theorem process_spiff_task_children_go_nodup (fuel : Nat) (ctx : Ctx) :
    ∀ (children : List String) (s s2 : PassState),
    TaskService.process_spiff_task_children_go fuel ctx s children = .ok s2 →
    buffersNodupKeys s → buffersNodupKeys s2 := by
  induction fuel using Nat.strong_induction_on with
  | _ fuel ihf =>
    intro children
    induction children with
    | nil =>
      intro s s2 h hnd
      unfold TaskService.process_spiff_task_children_go at h
      injection h with h2
      exact h2 ▸ hnd
    | cons cid rest ihr =>
      intro s s2 h hnd
      unfold TaskService.process_spiff_task_children_go at h
      split at h
      · exact Except.noConfusion h
      · rename_i child hch
        split at h
        · split at h
          · exact Except.noConfusion h
          · rename_i tms hrm
            refine ihr _ s2 h
              ⟨remove_spiff_task_from_parent_ok_nodup child s.task_models tms hrm hnd.1,
               hnd.2.1, hnd.2.2.1, hnd.2.2.2⟩
        · split at h
          · exact Except.noConfusion h
          · rename_i f
            split at h
            · exact Except.noConfusion h
            · rename_i s1 tmc hupd
              split at h
              · exact Except.noConfusion h
              · rename_i s3 hgo1
                have k1 := update_with_spiff_nodup f ctx s child none s1 tmc hupd hnd
                have k2 := ihf f (Nat.lt_succ_self f) child.children s1 s3 hgo1 k1
                exact ihr s3 s2 h k2

end SpiffArena

namespace SpiffArena

/-- C8: the reconciliation walk preserves the at-most-one-entry-per-identity
invariant of every pass buffer (task models by guid, process rows by guid or
the top_level sentinel, payload records by content hash, lifecycle events by
task guid), even when a node is visited more than once, because every buffer
write is a keyed replace-or-append; and save_objects_to_database flushes
each buffer as one batch holding exactly the buffered values. -/
theorem C8_buffers_at_most_once (fuel : Nat) (ctx : Ctx) (s : PassState)
    (st : SpiffTaskNode) (s2 : PassState)
    (h : TaskService.process_spiff_task_children fuel ctx s st = .ok s2)
    (hnd : buffersNodupKeys s) :
    buffersNodupKeys s2 ∧
    (TaskService.save_objects_to_database s2).task_models = s2.task_models.map Prod.snd ∧
    (TaskService.save_objects_to_database s2).bpmn_processes =
      s2.bpmn_processes.map Prod.snd ∧
    (TaskService.save_objects_to_database s2).process_instance_events =
      s2.process_instance_events.map Prod.snd ∧
    (TaskService.save_objects_to_database s2).json_data_records =
      s2.json_data_dicts.map Prod.snd := by
  unfold TaskService.process_spiff_task_children at h
  exact ⟨process_spiff_task_children_go_nodup fuel ctx st.children s s2 h hnd,
    rfl, rfl, rfl, rfl⟩

/-- C8 witness: the invariant fact applied to a concrete childless run on a
fresh pass state. -/
theorem C8_witness :
    buffersNodupKeys c8s ∧
    (buffersNodupKeys c8s ∧
     (TaskService.save_objects_to_database c8s).task_models = c8s.task_models.map Prod.snd ∧
     (TaskService.save_objects_to_database c8s).bpmn_processes =
       c8s.bpmn_processes.map Prod.snd ∧
     (TaskService.save_objects_to_database c8s).process_instance_events =
       c8s.process_instance_events.map Prod.snd ∧
     (TaskService.save_objects_to_database c8s).json_data_records =
       c8s.json_data_dicts.map Prod.snd) :=
  ⟨⟨List.nodup_nil, List.nodup_nil, List.nodup_nil, List.nodup_nil⟩,
   C8_buffers_at_most_once 1 c9ctx c8s c8st c8s
     (by unfold TaskService.process_spiff_task_children
         unfold TaskService.process_spiff_task_children_go
         rfl)
     ⟨List.nodup_nil, List.nodup_nil, List.nodup_nil, List.nodup_nil⟩⟩

end SpiffArena

namespace SpiffArena

theorem insertEntry_perm (p : String × JVal) (l : List (String × JVal)) :
    (insertEntry p l).Perm (p :: l) := by
  induction l with
  | nil => exact List.Perm.refl _
  | cons q t ih =>
    unfold insertEntry
    by_cases hpq : p.1 ≤ q.1
    · rw [if_pos hpq]
    · rw [if_neg hpq]
      exact (List.Perm.cons q ih).trans (List.Perm.swap p q t)

theorem sortEntries_perm (l : List (String × JVal)) : (sortEntries l).Perm l := by
  induction l with
  | nil => exact List.Perm.refl _
  | cons p t ih => exact (insertEntry_perm p (sortEntries t)).trans (List.Perm.cons p ih)

theorem insertEntry_pairwise (p : String × JVal) (l : List (String × JVal))
    (h : l.Pairwise (fun a b => a.1 ≤ b.1)) :
    (insertEntry p l).Pairwise (fun a b => a.1 ≤ b.1) := by
  induction l with
  | nil => simp [insertEntry]
  | cons q t ih =>
    rw [List.pairwise_cons] at h
    unfold insertEntry
    by_cases hpq : p.1 ≤ q.1
    · rw [if_pos hpq]
      rw [List.pairwise_cons]
      refine ⟨fun a ha => ?_, List.pairwise_cons.mpr h⟩
      cases List.mem_cons.mp ha with
      | inl he => rw [he]; exact hpq
      | inr ht => exact hpq.trans (h.1 a ht)
    · rw [if_neg hpq]
      rw [List.pairwise_cons]
      refine ⟨fun a ha => ?_, ih h.2⟩
      have hqp : q.1 ≤ p.1 := le_of_not_le hpq
      cases List.mem_cons.mp ((insertEntry_perm p t).mem_iff.mp ha) with
      | inl he => rw [he]; exact hqp
      | inr ht => exact h.1 a ht

theorem sortEntries_pairwise (l : List (String × JVal)) :
    (sortEntries l).Pairwise (fun a b => a.1 ≤ b.1) := by
  induction l with
  | nil => simp [sortEntries]
  | cons p t ih => exact insertEntry_pairwise p (sortEntries t) ih

theorem pairwise_lt_of_sorted_nodup (l : List (String × JVal))
    (h1 : l.Pairwise (fun a b => a.1 ≤ b.1))
    (h2 : (l.map Prod.fst).Nodup) :
    l.Pairwise (fun a b => a.1 < b.1) := by
  induction l with
  | nil => exact List.Pairwise.nil
  | cons p t ih =>
    rw [List.pairwise_cons] at h1 ⊢
    simp only [List.map_cons, List.nodup_cons] at h2
    refine ⟨fun q hq => lt_of_le_of_ne (h1.1 q hq) ?_, ih h1.2 h2.2⟩
    intro he
    exact h2.1 (he ▸ List.mem_map_of_mem Prod.fst hq)

theorem canonEntries_map (l : List (String × JVal)) :
    canonEntries l = l.map (fun p => (p.1, canon p.2)) := by
  induction l with
  | nil => rfl
  | cons p t ih => simp [canonEntries, ih]

theorem jwfEntries_mem {l : List (String × JVal)} {k : String} {v : JVal}
    (h : jwfEntries l = true) (hm : (k, v) ∈ l) : jwf v = true := by
  induction l with
  | nil => exact absurd hm (List.not_mem_nil _)
  | cons p t ih =>
    rw [jwfEntries, Bool.and_eq_true] at h
    cases List.mem_cons.mp hm with
    | inl he =>
      have h1 := h.1
      rw [← he] at h1
      exact h1
    | inr ht => exact ih h.2 ht

theorem canon_eq_of_equiv (v w : JVal) (h : JEquiv v w) :
    jwf v = true → jwf w = true → canon v = canon w := by
  induction h with
  | null => intro _ _; rfl
  | bool b => intro _ _; rfl
  | num n => intro _ _; rfl
  | str s => intro _ _; rfl
  | arr_nil => intro _ _; rfl
  | arr_cons x y xs ys hxy hrest ih1 ih2 =>
    intro hv hw
    unfold jwf at hv hw
    rw [jwfList, Bool.and_eq_true] at hv hw
    have h1 := ih1 hv.1 hw.1
    have h2 := ih2 (by unfold jwf; exact hv.2) (by unfold jwf; exact hw.2)
    unfold canon at h2 ⊢
    injection h2 with h2a
    rw [canonList, canonList, h1, h2a]
  | obj xs ys hk hvals ih =>
    intro hv hw
    unfold jwf at hv hw
    rw [Bool.and_eq_true] at hv hw
    have ndx : (xs.map Prod.fst).Nodup := of_decide_eq_true hv.1
    have ndy : (ys.map Prod.fst).Nodup := of_decide_eq_true hw.1
    have hkx : (canonEntries xs).map Prod.fst = xs.map Prod.fst := by
      rw [canonEntries_map, List.map_map]
      rfl
    have hky : (canonEntries ys).map Prod.fst = ys.map Prod.fst := by
      rw [canonEntries_map, List.map_map]
      rfl
    have ndx' : (canonEntries xs).Nodup := List.Nodup.of_map Prod.fst (hkx ▸ ndx)
    have ndy' : (canonEntries ys).Nodup := List.Nodup.of_map Prod.fst (hky ▸ ndy)
    have hmem : ∀ a, a ∈ canonEntries xs ↔ a ∈ canonEntries ys := by
      intro a
      rw [canonEntries_map, canonEntries_map]
      constructor
      · intro ha
        obtain ⟨p, hp, hpa⟩ := List.mem_map.mp ha
        obtain ⟨q, hq, hq1⟩ :=
          List.mem_map.mp (hk.mem_iff.mp (List.mem_map_of_mem Prod.fst hp))
        have hpy : (p.1, q.2) ∈ ys := by
          rw [← hq1]
          exact hq
        have hcv : canon p.2 = canon q.2 :=
          ih p.1 p.2 q.2 hp hpy (jwfEntries_mem hv.2 hp) (jwfEntries_mem hw.2 hpy)
        refine List.mem_map.mpr ⟨q, hq, ?_⟩
        rw [← hpa]
        rw [Prod.ext_iff]
        exact ⟨hq1, hcv.symm⟩
      · intro ha
        obtain ⟨q, hq, hqa⟩ := List.mem_map.mp ha
        obtain ⟨p, hp, hp1⟩ :=
          List.mem_map.mp (hk.symm.mem_iff.mp (List.mem_map_of_mem Prod.fst hq))
        have hqx : (q.1, p.2) ∈ xs := by
          rw [← hp1]
          exact hp
        have hcv : canon p.2 = canon q.2 :=
          ih q.1 p.2 q.2 hqx hq (jwfEntries_mem hv.2 hqx) (jwfEntries_mem hw.2 hq)
        refine List.mem_map.mpr ⟨p, hp, ?_⟩
        rw [← hqa]
        rw [Prod.ext_iff]
        exact ⟨hp1, hcv⟩
    have hperm : (canonEntries xs).Perm (canonEntries ys) :=
      (List.perm_ext_iff_of_nodup ndx' ndy').mpr hmem
    have hnd1 : ((sortEntries (canonEntries xs)).map Prod.fst).Nodup :=
      (((sortEntries_perm (canonEntries xs)).map Prod.fst).nodup_iff).mpr (hkx ▸ ndx)
    have hnd2 : ((sortEntries (canonEntries ys)).map Prod.fst).Nodup :=
      (((sortEntries_perm (canonEntries ys)).map Prod.fst).nodup_iff).mpr (hky ▸ ndy)
    have hp1 := pairwise_lt_of_sorted_nodup _ (sortEntries_pairwise (canonEntries xs)) hnd1
    have hp2 := pairwise_lt_of_sorted_nodup _ (sortEntries_pairwise (canonEntries ys)) hnd2
    have hpp : (sortEntries (canonEntries xs)).Perm (sortEntries (canonEntries ys)) :=
      (sortEntries_perm _).trans (hperm.trans (sortEntries_perm _).symm)
    haveI : IsAntisymm (String × JVal) (fun a b => a.1 < b.1) :=
      ⟨fun a b h1 h2 => absurd (h1.trans h2) (lt_irrefl _)⟩
    have hfin := List.eq_of_perm_of_sorted hpp hp1 hp2
    unfold canon
    rw [hfin]

end SpiffArena

namespace SpiffArena

theorem c6_equiv : JEquiv c6v c6w := by
  show JEquiv (.jobj [("b", .jnum 2), ("a", .jnum 1)])
      (.jobj [("a", .jnum 1), ("b", .jnum 2)])
  refine JEquiv.obj _ _ (by decide) ?_
  intro k v w h1 h2
  simp only [List.mem_cons, List.not_mem_nil, or_false, Prod.mk.injEq] at h1 h2
  rcases h1 with ⟨rfl, rfl⟩ | ⟨rfl, rfl⟩ <;> rcases h2 with ⟨h2a, rfl⟩ | ⟨h2a, rfl⟩ <;>
    first
      | exact JEquiv.num _
      | exact absurd h2a (by decide)

/-- C6: the content hash is the sha256 hex digest of the canonical JSON
serialization with sorted keys, so any two structurally equal well-formed
payloads - in particular dicts whose keys are supplied in different orders -
hash identically, and the hash-compare update computes the same updated
model for both. -/
theorem C6_hash_key_order_insensitive (v w : JVal) (h : JEquiv v w)
    (hv : jwf v = true) (hw : jwf w = true) :
    json_hash v = json_hash w ∧
    ∀ (tm : TaskModel) (c : String),
      (TaskService.update_task_data_on_task_model_and_return_dict_if_updated tm v c).1 =
        (TaskService.update_task_data_on_task_model_and_return_dict_if_updated tm w c).1 := by
  have hc : canon v = canon w := canon_eq_of_equiv v w h hv hw
  have hd : dumps_sort_keys v = dumps_sort_keys w := by
    unfold dumps_sort_keys
    rw [hc]
  constructor
  · unfold json_hash
    rw [hd]
  · intro tm c
    unfold TaskService.update_task_data_on_task_model_and_return_dict_if_updated
    rw [hd]
    simp only []
    by_cases hcc : TaskService.getColumn tm c = some (sha256_hexdigest (dumps_sort_keys w)) <;>
      simp [hcc]

/-- C6 witness: the hash insensitivity applied to a concrete two-key payload
supplied in two different key orders. -/
theorem C6_witness :
    JEquiv c6v c6w ∧ jwf c6v = true ∧ jwf c6w = true ∧
    (json_hash c6v = json_hash c6w ∧
     ∀ (tm : TaskModel) (c : String),
       (TaskService.update_task_data_on_task_model_and_return_dict_if_updated tm c6v c).1 =
         (TaskService.update_task_data_on_task_model_and_return_dict_if_updated tm c6w c).1) :=
  ⟨c6_equiv, rfl, rfl, C6_hash_key_order_insensitive c6v c6w c6_equiv rfl rfl⟩

end SpiffArena

namespace SpiffArena

theorem alistGet_mem {κ α : Type} [DecidableEq κ] {l : List (κ × α)} {g : κ} {v : α}
    (h : alistGet g l = some v) : (g, v) ∈ l := by
  induction l with
  | nil => exact absurd h (by simp [alistGet])
  | cons p t ih =>
    rw [alistGet] at h
    by_cases hp : p.1 = g
    · rw [if_pos hp] at h
      injection h with h2
      refine List.mem_cons.mpr (Or.inl ?_)
      rw [← hp, ← h2]
    · rw [if_neg hp] at h
      exact List.mem_cons_of_mem p (ih h)

theorem dbTaskByGuid_guid {ctx : Ctx} {g : String} {tmr : TaskModel}
    (h : dbTaskByGuid ctx g = some tmr) : tmr.guid = g := by
  unfold dbTaskByGuid at h
  have h2 := List.find?_some h
  exact eq_of_beq h2

theorem create_task_guid (ctx : Ctx) (bp : BpmnProcessModel) (pi : ProcessInstanceModel)
    (st : SpiffTaskNode) (tm0 : TaskModel)
    (h : TaskService._create_task ctx bp pi st = .ok tm0) : tm0.guid = st.id := by
  unfold TaskService._create_task at h
  revert h
  cases alistGet st.wf ctx.workflows with
  | none => intro h; exact absurd h (by simp)
  | some wfi =>
    simp only []
    cases alistGet (wfi.spec_name, st.task_spec) ctx.taskDefs with
    | none => intro h; exact absurd h (by simp)
    | some defId =>
      simp only []
      intro h
      injection h with h2
      rw [← h2]

theorem BufOkP_mono {ctx : Ctx} {P1 P2 : List String} {tms : List (String × TaskModel)}
    (h : BufOkP ctx P1 tms) (hs : ∀ cid ∈ P2, cid ∈ P1) : BufOkP ctx P2 tms := by
  intro g tm hg
  obtain ⟨props, gnode, h1, h2, h3, h4, h5⟩ := h g tm hg
  exact ⟨props, gnode, h1, h2, h3, h4, fun cid hc => h5 cid (hs cid hc)⟩

theorem remove_spiff_task_from_parent_spec (st : SpiffTaskNode)
    (tms tms2 : List (String × TaskModel))
    (h : TaskService.remove_spiff_task_from_parent st tms = .ok tms2) :
    ∃ pg, st.parent = some pg ∧
      ((alistGet pg tms = none ∧ tms2 = tms) ∨
       (∃ ptm props, alistGet pg tms = some ptm ∧ ptm.properties_json = some props ∧
         ((st.id ∈ props.children ∧
            tms2 = alistInsert pg { ptm with properties_json := some { props with children := props.children.erase st.id } } tms) ∨
          (st.id ∉ props.children ∧ tms2 = tms)))) := by
  unfold TaskService.remove_spiff_task_from_parent at h
  revert h
  cases st.parent with
  | none => intro h; exact absurd h (by simp)
  | some pg =>
    simp only []
    cases hlk : alistGet pg tms with
    | none =>
      intro h
      injection h with h2
      exact ⟨pg, rfl, Or.inl ⟨hlk, h2.symm⟩⟩
    | some ptm =>
      simp only []
      cases hpj : ptm.properties_json with
      | none => intro h; exact absurd h (by simp)
      | some props =>
        simp only []
        by_cases hm : st.id ∈ props.children
        · simp only [hm, if_true, reduceIte]
          intro h
          injection h with h2
          exact ⟨pg, rfl, Or.inr ⟨ptm, props, hlk, hpj, Or.inl ⟨hm, h2.symm⟩⟩⟩
        · simp only [hm, reduceIte]
          intro h
          injection h with h2
          exact ⟨pg, rfl, Or.inr ⟨ptm, props, hlk, hpj, Or.inr ⟨hm, h2.symm⟩⟩⟩

/-- C1 counterexample: visiting a speculative child before its parent.  The
pruning step runs while the parent is not yet buffered, so it is a no-op;
the parent is buffered afterwards with its live children list, and the pass
ends with the pruned child's guid still inside the parent's buffered
children - the claimed guarantee does not hold for this visit order. -/
theorem C1_counterexample :
    c1res = Except.ok c1s2v ∧
    ("c", c1cProps) ∈ c1tasks ∧
    has_state c1cNode PREDICTED_MASK = true ∧
    c1cNode.parent = some "p" ∧
    prunedIds c1ctx c1tasks = ["c"] ∧
    prunedNotReintroduced c1ctx c1tasks = false ∧
    alistGet "c" c1s2v.task_models = none ∧
    c1childrenOfP = some ["c"] :=
  ⟨rfl, by decide, rfl, rfl, rfl, rfl, rfl, rfl⟩

end SpiffArena

namespace SpiffArena

theorem add_tasks_prune_invariant (ctx : Ctx) (wf : Nat) (bp : BpmnProcessModel)
    (HKey : ctx.tasks.all (fun q => q.2.id == q.1) = true)
    (HN : ctx.tasks.all (fun q => decide q.2.children.Nodup) = true)
    (HPar : ctx.tasks.all (fun q => q.2.children.all (fun c =>
        match alistGet c ctx.tasks with
        | some cnode => cnode.parent == some q.1
        | none => true)) = true) :
    ∀ (tasks : List (String × TaskProps)) (s s2 : PassState) (P : List String),
    TaskService.add_tasks_to_bpmn_process ctx s tasks wf bp = .ok s2 →
    prunedNotReintroduced ctx tasks = true →
    BufOkP ctx P s.task_models →
    (∀ cid ∈ P, ∀ q ∈ tasks, ∀ node, alistGet q.1 ctx.tasks = some node →
       cid ∉ node.children) →
    BufOkP ctx (prunedIds ctx tasks ++ P) s2.task_models := by
  have hK : ∀ q ∈ ctx.tasks, q.2.id = q.1 := fun q hq =>
    eq_of_beq (List.all_eq_true.mp HKey q hq)
  have hNd : ∀ q ∈ ctx.tasks, q.2.children.Nodup := fun q hq =>
    of_decide_eq_true (List.all_eq_true.mp HN q hq)
  have hPar : ∀ q ∈ ctx.tasks, ∀ c ∈ q.2.children, ∀ cnode,
      alistGet c ctx.tasks = some cnode → cnode.parent = some q.1 := by
    intro q hq c hc cnode hcn
    have h2 := List.all_eq_true.mp (List.all_eq_true.mp HPar q hq) c hc
    rw [hcn] at h2
    exact eq_of_beq h2
  intro tasks
  induction tasks with
  | nil =>
    intro s s2 P h hpnr hbuf hrest
    unfold TaskService.add_tasks_to_bpmn_process at h
    injection h with h2
    rw [← h2]
    exact hbuf
  | cons q rest ih =>
    intro s s2 P h hpnr hbuf hrest
    rw [prunedNotReintroduced, Bool.and_eq_true] at hpnr
    unfold TaskService.add_tasks_to_bpmn_process at h
    revert h
    by_cases hroot : q.2.task_spec = "Root"
    · simp only [hroot, if_true, reduceIte]
      intro h
      have hmain := ih s s2 P h hpnr.2 hbuf
        (fun cid hc q2 hq2 => hrest cid hc q2 (List.mem_cons_of_mem _ hq2))
      unfold prunedIds
      rw [if_pos hroot]
      exact hmain
    · simp only [hroot, if_false, reduceIte]
      cases hlk : alistGet q.1 ctx.tasks with
      | none => intro h; exact absurd h (by simp)
      | some node =>
        simp only []
        have hnid : node.id = q.1 := hK (q.1, node) (alistGet_mem hlk)
        have hgetid : alistGet node.id ctx.tasks = some node := by
          rw [hnid]
          exact hlk
        by_cases hpred : has_state node PREDICTED_MASK = true
        · simp only [hpred, if_true, reduceIte]
          cases hrm : TaskService.remove_spiff_task_from_parent node s.task_models with
          | error e => intro h; exact absurd h (by simp)
          | ok tms =>
            simp only []
            intro h
            obtain ⟨pg, hparent, hcases⟩ :=
              remove_spiff_task_from_parent_spec node s.task_models tms hrm
            have hbuf2 : BufOkP ctx (node.id :: P) tms := by
              intro g tm hg
              rcases hcases with ⟨hnone, heq⟩ | ⟨ptm, props0, hpl, hpj, hinner⟩
              · rw [heq] at hg
                obtain ⟨props, gnode, k1, k2, k3, k4, k5⟩ := hbuf g tm hg
                refine ⟨props, gnode, k1, k2, k3, k4, ?_⟩
                intro cid hc
                rcases List.mem_cons.mp hc with hceq | hcp
                · subst hceq
                  intro hmemc
                  have hpar2 := hPar (g, gnode) (alistGet_mem k2) _ (k3 _ hmemc) node hgetid
                  simp only [] at hpar2
                  rw [hparent] at hpar2
                  injection hpar2 with hpgg
                  rw [← hpgg] at hg
                  rw [hnone] at hg
                  exact Option.noConfusion hg
                · exact k5 cid hcp
              · rcases hinner with ⟨hmem0, heq⟩ | ⟨hnm, heq⟩
                · rw [heq] at hg
                  by_cases hgpg : g = pg
                  · subst hgpg
                    rw [alistGet_alistInsert_self] at hg
                    injection hg with hg2
                    obtain ⟨propsP, gnodeP, k1, k2, k3, k4, k5⟩ := hbuf g ptm hpl
                    have k1e : propsP = props0 := Option.some.inj (k1.symm.trans hpj)
                    have hnd0 : props0.children.Nodup := k1e ▸ k4
                    refine ⟨{ props0 with children := props0.children.erase node.id },
                      gnodeP, ?_, k2, ?_, ?_, ?_⟩
                    · rw [← hg2]
                    · intro x hx
                      refine k3 x ?_
                      rw [k1e]
                      exact List.mem_of_mem_erase hx
                    · exact hnd0.erase node.id
                    · intro cid hc
                      rcases List.mem_cons.mp hc with hceq | hcp
                      · subst hceq
                        intro hmemc
                        rw [hnd0.mem_erase_iff] at hmemc
                        exact hmemc.1 rfl
                      · intro hmemc
                        refine k5 cid hcp ?_
                        rw [k1e]
                        exact List.mem_of_mem_erase hmemc
                  · rw [alistGet_alistInsert_ne pg g _ _ hgpg] at hg
                    obtain ⟨props, gnode, k1, k2, k3, k4, k5⟩ := hbuf g tm hg
                    refine ⟨props, gnode, k1, k2, k3, k4, ?_⟩
                    intro cid hc
                    rcases List.mem_cons.mp hc with hceq | hcp
                    · subst hceq
                      intro hmemc
                      have hpar2 := hPar (g, gnode) (alistGet_mem k2) _ (k3 _ hmemc) node hgetid
                      simp only [] at hpar2
                      rw [hparent] at hpar2
                      injection hpar2 with hpgg
                      exact hgpg hpgg.symm
                    · exact k5 cid hcp
                · rw [heq] at hg
                  obtain ⟨props, gnode, k1, k2, k3, k4, k5⟩ := hbuf g tm hg
                  refine ⟨props, gnode, k1, k2, k3, k4, ?_⟩
                  intro cid hc
                  rcases List.mem_cons.mp hc with hceq | hcp
                  · subst hceq
                    intro hmemc
                    have hpar2 := hPar (g, gnode) (alistGet_mem k2) _ (k3 _ hmemc) node hgetid
                    simp only [] at hpar2
                    rw [hparent] at hpar2
                    injection hpar2 with hpgg
                    have hgB : alistGet pg s.task_models = some tm := by
                      rw [hpgg]
                      exact hg
                    have htm : ptm = tm := Option.some.inj (hpl.symm.trans hgB)
                    have hpe : props = props0 :=
                      Option.some.inj (k1.symm.trans (htm ▸ hpj))
                    exact hnm (hpe ▸ hmemc)
                  · exact k5 cid hcp
            have hrest2 : ∀ cid ∈ node.id :: P, ∀ q2 ∈ rest, ∀ node2,
                alistGet q2.1 ctx.tasks = some node2 → cid ∉ node2.children := by
              intro cid hc q2 hq2 node2 hn2
              rcases List.mem_cons.mp hc with hceq | hcp
              · subst hceq
                have hhead := hpnr.1
                rw [if_neg hroot] at hhead
                rw [hlk] at hhead
                simp only [] at hhead
                rw [if_pos hpred] at hhead
                have := List.all_eq_true.mp hhead q2 hq2
                rw [hn2] at this
                exact of_decide_eq_true this
              · exact hrest cid hcp q2 (List.mem_cons_of_mem _ hq2) node2 hn2
            have hmain := ih { s with task_models := tms } s2 (node.id :: P) h hpnr.2
              hbuf2 hrest2
            unfold prunedIds
            rw [if_neg hroot]
            rw [hlk]
            simp only []
            rw [if_pos hpred]
            refine BufOkP_mono hmain ?_
            intro cid hc
            simp only [List.mem_cons, List.mem_append] at hc ⊢
            tauto
        · simp only [hpred, if_false, Bool.not_eq_true, reduceIte]
          cases hdb : dbTaskByGuid ctx q.1 with
          | some row =>
            simp only []
            cases hup : TaskService.update_task_model ctx s row node with
            | error e => intro h; exact absurd h (by simp)
            | ok p =>
              simp only []
              intro h
              obtain ⟨m1, m2, m3, m4, m5, m6, m7, m8, m9, m10⟩ :=
                update_task_model_spec ctx s row node p.1 p.2 (by rw [hup])
              have hkey : p.2.guid = q.1 := by
                rw [m2]
                exact dbTaskByGuid_guid hdb
              have hbuf2 : BufOkP ctx P (alistInsert p.2.guid p.2 p.1.task_models) := by
                intro g tm hg
                rw [hkey, m4] at hg
                by_cases hgq : g = q.1
                · subst hgq
                  rw [alistGet_alistInsert_self] at hg
                  injection hg with hg2
                  refine ⟨snapshotOf node, node, ?_, hlk, ?_, ?_, ?_⟩
                  · rw [← hg2]
                    exact m3
                  · intro x hx
                    simpa [snapshotOf] using hx
                  · have := hNd (q.1, node) (alistGet_mem hlk)
                    simpa [snapshotOf] using this
                  · intro cid hc
                    have := hrest cid hc q (List.mem_cons_self q rest) node hlk
                    simpa [snapshotOf] using this
                · rw [alistGet_alistInsert_ne q.1 g _ _ hgq] at hg
                  exact hbuf g tm hg
              have hrest2 : ∀ cid ∈ P, ∀ q2 ∈ rest, ∀ node2,
                  alistGet q2.1 ctx.tasks = some node2 → cid ∉ node2.children :=
                fun cid hc q2 hq2 => hrest cid hc q2 (List.mem_cons_of_mem _ hq2)
              have hmain := ih { p.1 with task_models := alistInsert p.2.guid p.2 p.1.task_models }
                s2 P h hpnr.2 hbuf2 hrest2
              unfold prunedIds
              rw [if_neg hroot]
              rw [hlk]
              simp only []
              rw [if_neg hpred]
              exact hmain
          | none =>
            simp only []
            cases hcr : TaskService._create_task ctx bp s.process_instance node with
            | error e => intro h; exact absurd h (by simp)
            | ok tm0 =>
              simp only []
              cases hup : TaskService.update_task_model ctx s tm0 node with
              | error e => intro h; exact absurd h (by simp)
              | ok p =>
                simp only []
                intro h
                obtain ⟨m1, m2, m3, m4, m5, m6, m7, m8, m9, m10⟩ :=
                  update_task_model_spec ctx s tm0 node p.1 p.2 (by rw [hup])
                have hkey : p.2.guid = q.1 := by
                  rw [m2, create_task_guid ctx bp s.process_instance node tm0 hcr]
                  exact hnid
                have hbuf2 : BufOkP ctx P (alistInsert p.2.guid p.2 p.1.task_models) := by
                  intro g tm hg
                  rw [hkey, m4] at hg
                  by_cases hgq : g = q.1
                  · subst hgq
                    rw [alistGet_alistInsert_self] at hg
                    injection hg with hg2
                    refine ⟨snapshotOf node, node, ?_, hlk, ?_, ?_, ?_⟩
                    · rw [← hg2]
                      exact m3
                    · intro x hx
                      simpa [snapshotOf] using hx
                    · have := hNd (q.1, node) (alistGet_mem hlk)
                      simpa [snapshotOf] using this
                    · intro cid hc
                      have := hrest cid hc q (List.mem_cons_self q rest) node hlk
                      simpa [snapshotOf] using this
                  · rw [alistGet_alistInsert_ne q.1 g _ _ hgq] at hg
                    exact hbuf g tm hg
                have hrest2 : ∀ cid ∈ P, ∀ q2 ∈ rest, ∀ node2,
                    alistGet q2.1 ctx.tasks = some node2 → cid ∉ node2.children :=
                  fun cid hc q2 hq2 => hrest cid hc q2 (List.mem_cons_of_mem _ hq2)
                have hmain := ih
                  { p.1 with task_models := alistInsert p.2.guid p.2 p.1.task_models }
                  s2 P h hpnr.2 hbuf2 hrest2
                unfold prunedIds
                rw [if_neg hroot]
                rw [hlk]
                simp only []
                rw [if_neg hpred]
                exact hmain

end SpiffArena

namespace SpiffArena

theorem add_tasks_no_predicted_buffered (ctx : Ctx) (wf : Nat) (bp : BpmnProcessModel)
    (HKey : ctx.tasks.all (fun q => q.2.id == q.1) = true) :
    ∀ (tasks : List (String × TaskProps)) (s s2 : PassState),
    TaskService.add_tasks_to_bpmn_process ctx s tasks wf bp = .ok s2 →
    (∀ cid node2, alistGet cid ctx.tasks = some node2 →
       has_state node2 PREDICTED_MASK = true → alistGet cid s.task_models = none) →
    (∀ cid node2, alistGet cid ctx.tasks = some node2 →
       has_state node2 PREDICTED_MASK = true → alistGet cid s2.task_models = none) := by
  have hK : ∀ q ∈ ctx.tasks, q.2.id = q.1 := fun q hq =>
    eq_of_beq (List.all_eq_true.mp HKey q hq)
  intro tasks
  induction tasks with
  | nil =>
    intro s s2 h hp
    unfold TaskService.add_tasks_to_bpmn_process at h
    injection h with h2
    rw [← h2]
    exact hp
  | cons q rest ih =>
    intro s s2 h hp
    unfold TaskService.add_tasks_to_bpmn_process at h
    revert h
    by_cases hroot : q.2.task_spec = "Root"
    · simp only [hroot, if_true, reduceIte]
      intro h
      exact ih s s2 h hp
    · simp only [hroot, if_false, reduceIte]
      cases hlk : alistGet q.1 ctx.tasks with
      | none => intro h; exact absurd h (by simp)
      | some node =>
        simp only []
        by_cases hpred : has_state node PREDICTED_MASK = true
        · simp only [hpred, if_true, reduceIte]
          cases hrm : TaskService.remove_spiff_task_from_parent node s.task_models with
          | error e => intro h; exact absurd h (by simp)
          | ok tms =>
            simp only []
            intro h
            refine ih _ s2 h ?_
            intro cid node2 hcn hcp
            have hold := hp cid node2 hcn hcp
            obtain ⟨pg, hparent, hcases⟩ :=
              remove_spiff_task_from_parent_spec node s.task_models tms hrm
            rcases hcases with ⟨hnone, heq⟩ | ⟨ptm, props0, hpl, hpj, hinner⟩
            · rw [heq]
              exact hold
            · have hne : cid ≠ pg := by
                intro he
                rw [he] at hold
                rw [hold] at hpl
                exact Option.noConfusion hpl
              rcases hinner with ⟨_, heq⟩ | ⟨_, heq⟩
              · rw [heq]
                rw [alistGet_alistInsert_ne pg cid _ _ hne]
                exact hold
              · rw [heq]
                exact hold
        · simp only [hpred, if_false, Bool.not_eq_true, reduceIte]
          cases hdb : dbTaskByGuid ctx q.1 with
          | some row =>
            simp only []
            cases hup : TaskService.update_task_model ctx s row node with
            | error e => intro h; exact absurd h (by simp)
            | ok p =>
              simp only []
              intro h
              obtain ⟨m1, m2, m3, m4, m5, m6, m7, m8, m9, m10⟩ :=
                update_task_model_spec ctx s row node p.1 p.2 (by rw [hup])
              have hkey : p.2.guid = q.1 := by
                rw [m2]
                exact dbTaskByGuid_guid hdb
              refine ih _ s2 h ?_
              intro cid node2 hcn hcp
              rw [hkey, m4]
              have hne : cid ≠ q.1 := by
                intro he
                rw [he] at hcn
                rw [hlk] at hcn
                injection hcn with hn2
                rw [← hn2] at hcp
                exact hpred hcp
              rw [alistGet_alistInsert_ne q.1 cid _ _ hne]
              exact hp cid node2 hcn hcp
          | none =>
            simp only []
            cases hcr : TaskService._create_task ctx bp s.process_instance node with
            | error e => intro h; exact absurd h (by simp)
            | ok tm0 =>
              simp only []
              cases hup : TaskService.update_task_model ctx s tm0 node with
              | error e => intro h; exact absurd h (by simp)
              | ok p =>
                simp only []
                intro h
                obtain ⟨m1, m2, m3, m4, m5, m6, m7, m8, m9, m10⟩ :=
                  update_task_model_spec ctx s tm0 node p.1 p.2 (by rw [hup])
                have hkey : p.2.guid = q.1 := by
                  rw [m2, create_task_guid ctx bp s.process_instance node tm0 hcr]
                  exact hK (q.1, node) (alistGet_mem hlk)
                refine ih _ s2 h ?_
                intro cid node2 hcn hcp
                rw [hkey, m4]
                have hne : cid ≠ q.1 := by
                  intro he
                  rw [he] at hcn
                  rw [hlk] at hcn
                  injection hcn with hn2
                  rw [← hn2] at hcp
                  exact hpred hcp
                rw [alistGet_alistInsert_ne q.1 cid _ _ hne]
                exact hp cid node2 hcn hcp

theorem prunedIds_predicted (ctx : Ctx)
    (HKey : ctx.tasks.all (fun q => q.2.id == q.1) = true) :
    ∀ (tasks : List (String × TaskProps)) (cid : String), cid ∈ prunedIds ctx tasks →
    ∃ node, alistGet cid ctx.tasks = some node ∧ has_state node PREDICTED_MASK = true := by
  have hK : ∀ q ∈ ctx.tasks, q.2.id = q.1 := fun q hq =>
    eq_of_beq (List.all_eq_true.mp HKey q hq)
  intro tasks
  induction tasks with
  | nil =>
    intro cid hc
    exact absurd hc (List.not_mem_nil _)
  | cons q rest ih =>
    intro cid hc
    unfold prunedIds at hc
    by_cases hroot : q.2.task_spec = "Root"
    · rw [if_pos hroot] at hc
      exact ih cid hc
    · rw [if_neg hroot] at hc
      cases hlk : alistGet q.1 ctx.tasks with
      | none =>
        rw [hlk] at hc
        simp only [] at hc
        exact ih cid hc
      | some node =>
        rw [hlk] at hc
        simp only [] at hc
        by_cases hpred : has_state node PREDICTED_MASK = true
        · rw [if_pos hpred] at hc
          rcases List.mem_cons.mp hc with hceq | hcp
          · subst hceq
            have hnid : node.id = q.1 := hK (q.1, node) (alistGet_mem hlk)
            refine ⟨node, ?_, hpred⟩
            rw [hnid]
            exact hlk
          · exact ih cid hcp
        · rw [if_neg hpred] at hc
          exact ih cid hc

/-- C1 amended: the pruning guarantee is order-dependent.  On a consistent
live task tree (keys matching node ids, duplicate-free children lists,
children pointing back to their parent) and a fresh pass buffer, if the
visit order never lists a pruned speculative id among the live children of a
later-visited task - as a parents-before-children order guarantees - then
after add_tasks_to_bpmn_process every pruned speculative child's guid is
absent from every buffered task snapshot's children list, and no pruned
child is itself buffered (so none is flushed to the database).  The
counterexample shows the children-list guarantee fails for a
child-before-parent order. -/
theorem C1_pruned_children_after_pass (ctx : Ctx) (wf : Nat) (bp : BpmnProcessModel)
    (tasks : List (String × TaskProps)) (s s2 : PassState)
    (HKey : ctx.tasks.all (fun q => q.2.id == q.1) = true)
    (HN : ctx.tasks.all (fun q => decide q.2.children.Nodup) = true)
    (HPar : ctx.tasks.all (fun q => q.2.children.all (fun c =>
        match alistGet c ctx.tasks with
        | some cnode => cnode.parent == some q.1
        | none => true)) = true)
    (hrun : TaskService.add_tasks_to_bpmn_process ctx s tasks wf bp = .ok s2)
    (hpnr : prunedNotReintroduced ctx tasks = true)
    (hinit : s.task_models = []) :
    (∀ cid ∈ prunedIds ctx tasks, ∀ g tm props,
      alistGet g s2.task_models = some tm → tm.properties_json = some props →
      cid ∉ props.children) ∧
    (∀ cid ∈ prunedIds ctx tasks, alistGet cid s2.task_models = none) := by
  have hb0 : BufOkP ctx [] s.task_models := by
    intro g tm hg
    rw [hinit] at hg
    exact absurd hg (by simp [alistGet])
  have hr0 : ∀ cid ∈ ([] : List String), ∀ q ∈ tasks, ∀ node,
      alistGet q.1 ctx.tasks = some node → cid ∉ node.children :=
    fun cid hc => absurd hc (List.not_mem_nil _)
  have hmain := add_tasks_prune_invariant ctx wf bp HKey HN HPar tasks s s2 [] hrun hpnr hb0 hr0
  constructor
  · intro cid hc g tm props hg hp
    obtain ⟨props2, gnode, k1, _, _, _, k5⟩ := hmain g tm hg
    rw [hp] at k1
    injection k1 with ke
    rw [ke]
    exact k5 cid (List.mem_append_left _ hc)
  · have hp0 : ∀ cid node2, alistGet cid ctx.tasks = some node2 →
        has_state node2 PREDICTED_MASK = true → alistGet cid s.task_models = none := by
      intro cid _ _ _
      rw [hinit]
      rfl
    have hkeep := add_tasks_no_predicted_buffered ctx wf bp HKey tasks s s2 hrun hp0
    intro cid hc
    obtain ⟨node, hcn, hcp⟩ := prunedIds_predicted ctx HKey tasks cid hc
    exact hkeep cid node hcn hcp

/-- C1 witness: the amended guarantee applied to the concrete parents-first
run of the counterexample's task tree, where the pruned child's guid is
indeed gone from every buffered snapshot and the pruned child itself was
never buffered. -/
theorem C1_witness :
    (TaskService.add_tasks_to_bpmn_process c1ctx c1s c1wtasks 1 c1bp = Except.ok c1ws2v ∧
     prunedNotReintroduced c1ctx c1wtasks = true ∧
     prunedIds c1ctx c1wtasks = ["c"] ∧
     c1s.task_models = []) ∧
    ((∀ cid ∈ prunedIds c1ctx c1wtasks, ∀ g tm props,
       alistGet g c1ws2v.task_models = some tm → tm.properties_json = some props →
       cid ∉ props.children) ∧
     (∀ cid ∈ prunedIds c1ctx c1wtasks, alistGet cid c1ws2v.task_models = none)) :=
  ⟨⟨rfl, rfl, rfl, rfl⟩,
   C1_pruned_children_after_pass c1ctx 1 c1bp c1wtasks c1s c1ws2v rfl rfl rfl rfl rfl rfl⟩

end SpiffArena
